import Mathlib

/-!
Verification of the turn-resolution and world-state engine of the
dungeon-crawl game (class `GameEngine`, file `src/lib/game/gameEngine.ts`).

The engine is shallowly embedded: every engine method is translated to a
pure Lean function on an explicit game-state value.  JavaScript mutation
becomes functional record update; `Map` objects become association lists;
JavaScript numbers holding integers become `Int`/`Nat`; the fractional
damage modifiers become `ℚ` with `Int.floor` for `Math.floor` (the engine
only ever floors after a multiplication, and the values involved are small
enough that IEEE doubles behave exactly like rationals there).

External collaborators (the LLM action interpreter, the room generator,
the crafting oracle, the body-search narrator) are awaited HTTP calls in
the source.  They are modelled as oracle inputs: each call consumes the
next element of an oracle queue carried in the execution state, a `none` /
`threw` element standing for the call throwing (which the source catches).
`Math.random()` draws are likewise consumed from a rational oracle queue,
`uuidv4()` is a deterministic fresh-name supply (a counter), and
`Date.now()` is a fixed `now : Nat` for the turn.  Log-entry ids and
timestamps, `console.log` calls and purely narrative description strings
that no claim observes are omitted from the event model.
-/

/-- Substring test, `hay.includes needle` of JavaScript strings. -/
def strIncludes (hay needle : String) : Bool :=
  hay.toList.tails.any (fun t => needle.toList.isPrefixOf t)

/-- `toLowerCase()` of the ASCII strings the engine compares, defined
directly over the character list so that proofs can evaluate it. -/
def strLower (s : String) : String := ⟨s.data.map Char.toLower⟩

/-- `split(' ')` over the character list (JavaScript `String.prototype.split`
with a single-space separator). -/
def splitOnChar (sep : Char) : List Char → List (List Char)
  | [] => [[]]
  | c :: rest =>
    let r := splitOnChar sep rest
    if c == sep then [] :: r
    else
      match r with
      | [] => [[c]]
      | w :: ws => (c :: w) :: ws

/-- The word list of `name.toLowerCase().split(' ')`. -/
def splitWords (s : String) : List String :=
  (splitOnChar ' ' s.data).map (fun w => ⟨w⟩)

/-- Case-insensitive equality used throughout the engine
(`a.toLowerCase() === b.toLowerCase()`). -/
def lowEq (a b : String) : Bool := strLower a == strLower b

/-- Case-insensitive inclusion, `a.toLowerCase().includes(b.toLowerCase())`. -/
def lowIncludes (a b : String) : Bool := strIncludes (strLower a) (strLower b)

/-- Replace the value of the first binding of key `k` (JavaScript
`Map.prototype.set`; appends when the key is absent). -/
def mapSet {α : Type} (k : String) (v : α) : List (String × α) → List (String × α)
  | [] => [(k, v)]
  | (k', v') :: rest => if k == k' then (k, v) :: rest else (k', v') :: mapSet k v rest

/-- Delete every binding of key `k` (`Map.prototype.delete`; keys are unique
in the engine, so dropping all matches is extensionally the same). -/
def mapDel {α : Type} (k : String) (m : List (String × α)) : List (String × α) :=
  m.filter (fun kv => kv.1 != k)

/-- Replace the element at index `i` by `f` applied to it. -/
def listUpd {α : Type} (i : Nat) (f : α → α) (l : List α) : List α :=
  match l.get? i with
  | some a => l.set i (f a)
  | none => l

/-- `properties` bag of an `Item`: the numeric fields the engine reads. -/
structure ItemProps where
  healing : Option Int
  damage : Option Int
  deriving DecidableEq, Repr

/-- `Item` (src/types/game.ts). -/
structure Item where
  id : String
  name : String
  itype : String
  stackable : Bool
  quantity : Int
  props : ItemProps
  deriving DecidableEq, Repr

/-- The numeric `effects` fields of a `StatusEffect` that the engine reads. -/
structure Effects where
  damagePerTurn : Option Int
  healingPerTurn : Option Int
  damageModifier : Option ℚ
  damageTakenModifier : Option ℚ
  deriving DecidableEq, Repr

/-- `StatusEffect` (src/types/game.ts).  `effects` is optional because the
engine receives these objects from unvalidated LLM JSON and itself guards
with `status.effects || ...`. -/
structure StatusEffect where
  id : String
  name : String
  duration : Int
  effects : Option Effects
  deriving DecidableEq, Repr

/-- A stored rapport record, `RapportLevel` (src/types/game.ts). -/
structure RapportRecord where
  entityId : String
  level : Int
  category : String
  lastInteraction : Nat
  trustLevel : Int
  fearLevel : Int
  respectLevel : Int
  deriving DecidableEq, Repr

/-- `EmotionalCore`. -/
structure EmotionCore where
  emotion : String
  cause : String
  deriving DecidableEq, Repr

/-- `EmotionalState` fields the engine reads and writes. -/
structure Emo where
  primary : EmotionCore
  secondary : Option EmotionCore
  intensity : Int
  stability : Int
  duration : Int
  deriving DecidableEq, Repr

/-- `ConversationState` fields the engine reads and writes. -/
structure Conv where
  isActive : Bool
  turn : Nat
  mood : String
  topics : List String
  lastPlayerMessage : Option String
  deriving DecidableEq, Repr

/-- `Monster` (src/types/game.ts); humanoid-NPC fields are optional as in
the source.  `personalityTraits` keeps the `trait` strings of the
`personality_traits` objects, the only part the engine reads. -/
structure Monster where
  id : String
  name : String
  health : Int
  maxHealth : Int
  damage : Int
  behavior : String
  loot : List Item
  possessions : List Item
  occupation : Option String
  personalityTraits : List String
  currentEmotion : Option Emo
  conversationState : Option Conv
  rapport : Option (List (String × RapportRecord))
  deriving DecidableEq, Repr

/-- `Door`. -/
structure Door where
  id : String
  direction : String
  description : String
  locked : Bool
  leadsTo : Option String
  deriving DecidableEq, Repr

/-- `BodyCondition` enum. -/
inductive BodyCondition where
  | fresh | recentlyDead | decomposing | skeletal | dust
  deriving DecidableEq, Repr

/-- `BodyState`. -/
structure BodyState where
  condition : BodyCondition
  timeOfDeath : Nat
  causeOfDeath : String
  decompositionLevel : Nat
  searchable : Bool
  witnessedByNPCs : List String
  deriving DecidableEq, Repr

/-- `DeadBody`. -/
structure DeadBody where
  id : String
  originalNPCId : String
  name : String
  description : String
  bodyState : BodyState
  originalLoot : List Item
  originalPossessions : List Item
  searchedBy : List String
  roomId : String
  originalOccupation : String
  deriving DecidableEq, Repr

/-- `Room`.  An absent `deadBodies` array is modelled as `[]` (the engine
always guards `room.deadBodies` before use, and lazily initialises it). -/
structure Room where
  id : String
  name : String
  description : String
  items : List Item
  monsters : List Monster
  doors : List Door
  visited : Bool
  specialFeatures : List String
  deadBodies : List DeadBody
  deriving DecidableEq, Repr

/-- A game-log entry; the uuid and timestamp bookkeeping of `GameEvent` is
omitted, the type tag and message are kept. -/
structure GameEvent where
  etype : String
  message : String
  deriving DecidableEq, Repr

/-- An `EmotionalEvent` (fields the engine writes; id/timestamp omitted). -/
structure EmotionalEvent where
  etype : String
  description : String
  affectedNPCs : List String
  significance : Int
  deriving DecidableEq, Repr

/-- `Player`. -/
structure Player where
  name : String
  health : Int
  maxHealth : Int
  level : Nat
  experience : Int
  experienceToNext : Int
  inventory : List Item
  equippedWeapon : Option Item
  statuses : List StatusEffect
  currentRoomId : String
  deriving DecidableEq, Repr

/-- `GameState`: the root aggregate owned by the engine.  `rooms` and the
global `deadBodies` registry are association lists standing for the `Map`s.
In JavaScript the registry holds aliases of the room's body objects; here
it holds copies, and the theorems only ever use the registry's key set. -/
structure GameState where
  player : Player
  rooms : List (String × Room)
  deadBodiesReg : List (String × DeadBody)
  currentTurn : Nat
  gameLog : List GameEvent
  emotionalEvents : List EmotionalEvent
  gameOver : Bool
  victory : Bool
  deriving DecidableEq, Repr

/-- Outcome of one `api.attemptCrafting` call (the crafting oracle). -/
inductive CraftOut where
  | ok (item : Item)
  | noResult
  | threw
  deriving DecidableEq, Repr

/-- Outcome of one `api.searchBody` call (the body-search narrator).
`threw` is the call raising, which the engine catches with a local
fallback. -/
inductive SearchOut where
  | api (success : Bool) (itemsFound : List Item) (witnessesReact : Bool)
      (searchDescription : String) (emotionalImpact : String)
  | threw
  deriving DecidableEq, Repr

/-- Execution state: the game state plus the oracle queues standing for
randomness, uuid generation, the wall clock and the awaited collaborators. -/
structure St where
  gs : GameState
  uuidCtr : Nat
  now : Nat
  rands : List ℚ
  extraDirsQueue : List (List String)
  genRoomQueue : List (Option Room)
  craftQueue : List CraftOut
  searchQueue : List SearchOut
  lootQueue : List (List Item)
  deriving DecidableEq, Repr

/-- `St` plus ghost tick counters.  The counters are instrumentation only:
they are incremented exclusively by the two tick wrappers
(`tickStatusE`, `tickBodyE`) below, never by any engine handler, so they
count how many times `processAction` ran each per-turn tick. -/
structure Exec where
  st : St
  statusTicks : Nat
  bodyTicks : Nat
  deriving DecidableEq, Repr

/-- Look a room up in the state (`this.gameState.rooms.get(id)`). -/
def getRoom (g : GameState) (id : String) : Option Room :=
  (g.rooms.lookup id)

/-- Append a game-log entry (`addGameEvent`). -/
def addEvent (t m : String) (s : St) : St :=
  { s with gs := { s.gs with gameLog := s.gs.gameLog ++ [⟨t, m⟩] } }

/-- Update the player record. -/
def updPlayer (f : Player → Player) (s : St) : St :=
  { s with gs := { s.gs with player := f s.gs.player } }

/-- Apply `f` to every binding of key `id` (mutating the room object the
map holds). -/
def mapUpdKey (id : String) (f : Room → Room) : List (String × Room) → List (String × Room)
  | [] => []
  | (k, v) :: rest =>
    if k == id then (k, f v) :: mapUpdKey id f rest
    else (k, v) :: mapUpdKey id f rest

/-- Update the room stored under `id` in place. -/
def updRoom (id : String) (f : Room → Room) (s : St) : St :=
  { s with gs := { s.gs with rooms := mapUpdKey id f s.gs.rooms } }

/-- Insert a room (`this.gameState.rooms.set`). -/
def setRoom (r : Room) (s : St) : St :=
  { s with gs := { s.gs with rooms := mapSet r.id r s.gs.rooms } }

/-- Insert into the global dead-body registry. -/
def regSet (b : DeadBody) (s : St) : St :=
  { s with gs := { s.gs with deadBodiesReg := mapSet b.id b s.gs.deadBodiesReg } }

/-- Delete from the global dead-body registry. -/
def regDel (id : String) (s : St) : St :=
  { s with gs := { s.gs with deadBodiesReg := mapDel id s.gs.deadBodiesReg } }

/-- `createEmotionalEvent`: append, then cap the stored list at 100 by
keeping the last 50. -/
def pushEmoEvent (ev : EmotionalEvent) (s : St) : St :=
  { s with gs := { s.gs with emotionalEvents :=
      let l := s.gs.emotionalEvents ++ [ev]
      if l.length > 100 then l.drop (l.length - 50) else l } }

/-- Draw the next `Math.random()` value (0 when the oracle is exhausted). -/
def popRand (s : St) : ℚ × St :=
  match s.rands with
  | [] => (0, s)
  | r :: rest => (r, { s with rands := rest })

/-- Draw a fresh uuid. -/
def popUuid (s : St) : String × St :=
  ("uuid-" ++ toString s.uuidCtr, { s with uuidCtr := s.uuidCtr + 1 })

/-- Draw the next room-generator outcome (`none` = the call threw). -/
def popGenRoom (s : St) : Option Room × St :=
  match s.genRoomQueue with
  | [] => (none, s)
  | r :: rest => (r, { s with genRoomQueue := rest })

/-- Draw the randomly chosen extra door directions of `generateNewRoom`. -/
def popExtraDirs (s : St) : List String × St :=
  match s.extraDirsQueue with
  | [] => ([], s)
  | d :: rest => (d, { s with extraDirsQueue := rest })

/-- Draw the next crafting-oracle outcome. -/
def popCraft (s : St) : CraftOut × St :=
  match s.craftQueue with
  | [] => (CraftOut.threw, s)
  | c :: rest => (c, { s with craftQueue := rest })

/-- Draw the next body-search-narrator outcome. -/
def popSearch (s : St) : SearchOut × St :=
  match s.searchQueue with
  | [] => (SearchOut.threw, s)
  | c :: rest => (c, { s with searchQueue := rest })

/-- Draw the next random loot roll of `generateLootForNPC` (the function is
a cascade of `Math.random()` draws over occupation-keyed tables; its output
list is supplied by the oracle). -/
def popLoot (s : St) : List Item × St :=
  match s.lootQueue with
  | [] => ([], s)
  | c :: rest => (c, { s with lootQueue := rest })

/-! ### Status effects (`applyStateChanges`, `updateStatusEffects`) -/

/-- One `changes.addStatuses` entry applied (gameEngine.ts lines 306-327):
case-insensitive name collision refreshes duration to the max and replaces
the effects when the incoming payload carries any (`status.effects ||
existingStatus.effects`); otherwise the status is appended. -/
def addStatusOne (status : StatusEffect) (s : St) : St :=
  match s.gs.player.statuses.findIdx? (fun t => lowEq t.name status.name) with
  | some i =>
      let refresh := fun (e : StatusEffect) =>
        { e with
          duration := max e.duration status.duration,
          effects := (match status.effects with
            | some x => some x
            | none => e.effects) }
      let s := updPlayer (fun p => { p with statuses := listUpd i refresh p.statuses }) s
      addEvent "system" (status.name ++ " effect refreshed.") s
  | none =>
      let s := updPlayer (fun p => { p with statuses := p.statuses ++ [status] }) s
      addEvent "system" ("You are now affected by " ++ status.name ++ ".") s

/-- The `stateChanges` payload of one LLM action (`roomChanges.addFeatures`
is flattened into `addFeatures`). -/
structure StateChanges where
  health : Option Int
  addStatuses : List StatusEffect
  removeStatuses : List String
  addFeatures : List String
  deriving DecidableEq, Repr

/-- `applyStateChanges` (lines 297-343). -/
def applyStateChanges (ch : StateChanges) (s : St) : St :=
  let s := match ch.health with
    | some d => updPlayer (fun p =>
        { p with health := max 0 (min (p.health + d) p.maxHealth) }) s
    | none => s
  let s := ch.addStatuses.foldl (fun s st => addStatusOne st s) s
  let s := updPlayer (fun p =>
    { p with statuses := p.statuses.filter (fun t => !(ch.removeStatuses.contains t.id)) }) s
  if ch.addFeatures.isEmpty then s
  else
    match getRoom s.gs s.gs.player.currentRoomId with
    | some _ => updRoom s.gs.player.currentRoomId (fun r =>
        { r with specialFeatures := r.specialFeatures ++ ch.addFeatures }) s
    | none => s

/-- `processStatusEffect` (lines 826-866): per-turn damage subtracted from
health floored at 0, per-turn healing added capped at `maxHealth`, each
with a log entry when the amount is positive. -/
def processStatusEffect (status : StatusEffect) (s : St) : St :=
  let eff := status.effects
  let s := match eff >>= Effects.damagePerTurn with
    | some d =>
        let s := updPlayer (fun p => { p with health := max 0 (p.health - d) }) s
        if d > 0 then
          addEvent "combat" (status.name ++ " deals " ++ toString d ++ " damage!") s
        else s
    | none => s
  match eff >>= Effects.healingPerTurn with
  | some h =>
      let s := updPlayer (fun p =>
        { p with health := min p.maxHealth (p.health + h) }) s
      if h > 0 then
        addEvent "action" (status.name ++ " heals " ++ toString h ++ " health.") s
      else s
  | none => s

/-- The duration decrement (`map`) and expiry removal (`filter`) of
`updateStatusEffects`, also collecting the worn-off log entries in filter
order. -/
def decAndFilter : List StatusEffect → List StatusEffect × List GameEvent
  | [] => ([], [])
  | st :: rest =>
      let st' := if st.duration = -1 then st else { st with duration := st.duration - 1 }
      let (keep, evs) := decAndFilter rest
      if st'.duration = 0 then
        (keep, ⟨"system", st'.name ++ " has worn off."⟩ :: evs)
      else
        (st' :: keep, evs)

/-- `updateStatusEffects` (lines 796-824): apply every active effect's
per-turn numbers first, then decrement non-permanent durations (the
permanent sentinel is `-1`) and drop effects whose duration reached
exactly 0, logging their expiry. -/
def updateStatusEffectsSt (s : St) : St :=
  let s := s.gs.player.statuses.foldl (fun s st => processStatusEffect st s) s
  let (keep, evs) := decAndFilter s.gs.player.statuses
  let s := updPlayer (fun p => { p with statuses := keep }) s
  { s with gs := { s.gs with gameLog := s.gs.gameLog ++ evs } }

/-! ### Combat numbers, experience (`calculatePlayerDamage`,
`calculateDamageTaken`, `gainExperience`, `levelUp`) -/

/-- `calculatePlayerDamage` (lines 678-697): 10 base plus equipped-weapon
damage, then every active `damageModifier` applied in list order with a
floor after each multiplication. -/
def calculatePlayerDamage (p : Player) : Int :=
  let base : Int := 10 + (match p.equippedWeapon with
    | some w => w.props.damage.getD 0
    | none => 0)
  p.statuses.foldl (fun b st =>
    match st.effects >>= Effects.damageModifier with
    | some m => ⌊(b : ℚ) * (1 + m)⌋
    | none => b) base

/-- `calculateDamageTaken` (lines 699-714): incoming damage with every
active `damageTakenModifier` applied sequentially, flooring each time. -/
def calculateDamageTaken (p : Player) (incomingDamage : Int) : Int :=
  p.statuses.foldl (fun b st =>
    match st.effects >>= Effects.damageTakenModifier with
    | some m => ⌊(b : ℚ) * (1 + m)⌋
    | none => b) incomingDamage

/-- `Math.floor(baseXP * Math.pow(1.5, level - 1))` with `baseXP = 100` and
the exponent `n = level - 1`, computed exactly: `1.5^n = 3^n / 2^n` and the
doubles involved are exact for every level the game can reach. -/
def expNext (n : Nat) : Int := Int.ofNat ((100 * 3 ^ n) / 2 ^ n)

/-- `levelUp` (lines 939-956): one level, the new exponential threshold,
`20 + 5 * newLevel` extra max health and a full heal.  Experience is not
touched. -/
def levelUp (s : St) : St :=
  let s := updPlayer (fun p =>
    let lvl' := p.level + 1
    { p with level := lvl',
             experienceToNext := expNext (lvl' - 1),
             maxHealth := p.maxHealth + (20 + 5 * (lvl' : Int)),
             health := p.maxHealth + (20 + 5 * (lvl' : Int)) }) s
  let s := addEvent "levelup" ("LEVEL UP! You are now level " ++
    toString s.gs.player.level ++ "!") s
  addEvent "levelup" "max health! Fully healed!" s

/-- `gainExperience` (lines 929-937): add the award, log it, and level up
(once — a single `if`, not a loop) when the threshold is reached. -/
def gainExperience (amount : Int) (reason : String) (s : St) : St :=
  let s := updPlayer (fun p => { p with experience := p.experience + amount }) s
  let s := addEvent "system" ("+" ++ toString amount ++ " XP (" ++ reason ++ ")") s
  if s.gs.player.experience ≥ s.gs.player.experienceToNext then levelUp s else s

/-! ### NPC classification, witnesses, rapport -/

/-- `isHumanoidNPC` (lines 1361-1368). -/
def isHumanoidNPC (m : Monster) : Bool :=
  m.behavior == "friendly" || m.behavior == "neutral" || m.behavior == "trading" ||
  m.occupation.isSome || m.conversationState.isSome

/-- `getNPCWitnessesInRoom` (lines 1355-1359). -/
def getNPCWitnessesInRoom (room : Room) : List String :=
  (room.monsters.filter isHumanoidNPC).map Monster.id

/-- The fixed rapport-category thresholds of `updatePlayerRapport`
(lines 1796-1804). -/
def rapportCategoryOf (l : Int) : String :=
  if l ≥ 80 then "devoted"
  else if l ≥ 40 then "close_friend"
  else if l ≥ 20 then "ally"
  else if l ≥ 5 then "friendly"
  else if l ≥ -4 then "neutral"
  else if l ≥ -19 then "unfriendly"
  else if l ≥ -39 then "hostile"
  else if l ≥ -79 then "enemy"
  else "mortal_enemy"

/-- `getPlayerRapport` (lines 1772-1781): 0 whenever the room, the NPC, its
rapport map or the player's record is missing. -/
def getPlayerRapport (npcId : String) (s : St) : Int :=
  match getRoom s.gs s.gs.player.currentRoomId with
  | none => 0
  | some room =>
    match room.monsters.find? (fun m => m.id == npcId) with
    | none => 0
    | some npc =>
      match npc.rapport with
      | none => 0
      | some rm =>
        match rm.lookup s.gs.player.name with
        | none => 0
        | some rec => rec.level

/-- `updatePlayerRapport` (lines 1783-1806): a no-op unless the NPC already
has a rapport record for the player; otherwise clamp to [-100,100], stamp
the time and recompute the category. -/
def updatePlayerRapport (npcId : String) (change : Int) (s : St) : St :=
  match getRoom s.gs s.gs.player.currentRoomId with
  | none => s
  | some room =>
    match room.monsters.find? (fun m => m.id == npcId) with
    | none => s
    | some npc =>
      match npc.rapport with
      | none => s
      | some rm =>
        match rm.lookup s.gs.player.name with
        | none => s
        | some pr =>
          let lvl := max (-100) (min 100 (pr.level + change))
          let pr' := { pr with
            level := lvl, lastInteraction := s.now,
            category := rapportCategoryOf lvl }
          updRoom s.gs.player.currentRoomId (fun r =>
            { r with monsters := r.monsters.map (fun m =>
                if m.id == npcId then { m with rapport := some (mapSet s.gs.player.name pr' rm) }
                else m) }) s

/-! ### Corpse lifecycle (`createPersistentBody`, `updateBodyDecomposition`,
`searchBody`, `handleSearchAction`) -/

/-- `getDeathDescription` (lines 999-1009). -/
def getDeathDescription (causeOfDeath : String) : String :=
  if strIncludes causeOfDeath "player" then
    "Multiple wounds are visible from the fatal encounter."
  else if strIncludes causeOfDeath "fire" then
    "The body shows signs of severe burns."
  else if strIncludes causeOfDeath "poison" then
    "The skin has a sickly pallor, suggesting poisoning."
  else
    "The cause of death is unclear from external examination."

/-- `createPersistentBody` (lines 959-997): snapshot loot and possessions
(plus the occupation-keyed random possessions, supplied by the loot
oracle), create a `FRESH` body at decomposition level 0, `searchable`,
witnessed by the humanoid NPCs present, and register it in the room and
the global registry. -/
def createPersistentBody (monster : Monster) (roomId : String) (causeOfDeath : String)
    (s : St) : St :=
  match getRoom s.gs roomId with
  | none => s
  | some room =>
    let (generatedItems, s) := popLoot s
    let (bodyId, s) := popUuid s
    let deadBody : DeadBody := {
      id := bodyId
      originalNPCId := monster.id
      name := monster.name
      description := "The lifeless body of " ++ monster.name ++ ". " ++
        getDeathDescription causeOfDeath
      bodyState := {
        condition := BodyCondition.fresh
        timeOfDeath := s.now
        causeOfDeath := causeOfDeath
        decompositionLevel := 0
        searchable := true
        witnessedByNPCs := getNPCWitnessesInRoom room }
      originalLoot := monster.loot
      originalPossessions := monster.possessions ++ generatedItems
      searchedBy := []
      roomId := roomId
      originalOccupation := monster.occupation.getD "unknown" }
    let s := updRoom roomId (fun r => { r with deadBodies := r.deadBodies ++ [deadBody] }) s
    let s := regSet deadBody s
    addEvent "system" ("The body of " ++ monster.name ++ " lies motionless on the ground.") s

/-- The decomposition level `updateBodyDecomposition` computes from the
milliseconds elapsed since death (lines 1510-1520); `oldLvl` is kept when
at most two hours have passed.  Comparisons and floors of the JavaScript
`hoursSinceDeath` real arithmetic are carried out exactly on the
millisecond counts: 2h = 7200000 ms, 24h = 86400000 ms, 168h = 604800000
ms. -/
def decompLevel (oldLvl : Nat) (ms : Nat) : Nat :=
  if 604800000 < ms then min 10 (ms / 604800000 + 7)
  else if 86400000 < ms then min 7 (ms / 86400000 + 2)
  else if 7200000 < ms then min 2 (ms / 7200000)
  else oldLvl

/-- The condition band of the same computation. -/
def decompCondition (oldCond : BodyCondition) (ms : Nat) : BodyCondition :=
  if 604800000 < ms then BodyCondition.skeletal
  else if 86400000 < ms then BodyCondition.decomposing
  else if 7200000 < ms then BodyCondition.recentlyDead
  else oldCond

/-- `getBodyDescriptionByCondition` (lines 1549-1566). -/
def getBodyDescriptionByCondition (name : String) (condition : BodyCondition)
    (causeOfDeath : String) : String :=
  let deathDesc := getDeathDescription causeOfDeath
  match condition with
  | BodyCondition.fresh => "The recently deceased body of " ++ name ++ ". " ++ deathDesc
  | BodyCondition.recentlyDead =>
      "The body of " ++ name ++ ", showing early signs of rigor mortis. " ++ deathDesc
  | BodyCondition.decomposing =>
      "The decomposing remains of " ++ name ++
      ". The body is bloated and has a strong odor. " ++ deathDesc
  | BodyCondition.skeletal =>
      "The skeletal remains of " ++ name ++ ". Only bones and some dried tissue remain."
  | BodyCondition.dust =>
      "Barely visible traces of what was once " ++ name ++
      ". Time has claimed all but the faintest remnants."

/-- The per-body step of `updateBodyDecomposition` (lines 1503-1535):
recompute condition and level from elapsed time, and when either changed
update them, flip `searchable` off above level 7 and refresh the
description. -/
def decomposeBody (now : Nat) (b : DeadBody) : DeadBody :=
  let ms := now - b.bodyState.timeOfDeath
  let newCondition := decompCondition b.bodyState.condition ms
  let newLevel := decompLevel b.bodyState.decompositionLevel ms
  if newCondition ≠ b.bodyState.condition ∨ newLevel ≠ b.bodyState.decompositionLevel then
    { b with
      bodyState := { b.bodyState with
        condition := newCondition,
        decompositionLevel := newLevel,
        searchable := if newLevel > 7 then false else b.bodyState.searchable },
      description := getBodyDescriptionByCondition b.name newCondition
        b.bodyState.causeOfDeath }
  else b

/-- One fully-decomposed body removed (lines 1542-1545): log the removal
and delete the body from the global registry. -/
def removeBodyStep (s : St) (b : DeadBody) : St :=
  regDel b.id (addEvent "system" ("The remains of " ++ b.name ++
    " have completely decomposed and are no longer visible.") s)

/-- `updateBodyDecomposition` (lines 1497-1547): age every body in the
player's current room, then delete the fully decomposed ones (level ≥ 10)
from the room and the global registry, logging their removal. -/
def updateBodyDecomposition (s : St) : St :=
  match getRoom s.gs s.gs.player.currentRoomId with
  | none => s
  | some room =>
    if room.deadBodies.isEmpty then s else
    let aged := room.deadBodies.map (decomposeBody s.now)
    let removed := aged.filter (fun b => b.bodyState.decompositionLevel ≥ 10)
    let kept := aged.filter (fun b => b.bodyState.decompositionLevel < 10)
    let s := updRoom s.gs.player.currentRoomId (fun r => { r with deadBodies := kept }) s
    removed.foldl removeBodyStep s

/-- Result triple of `searchBody`. -/
structure SearchRes where
  success : Bool
  items : List Item
  message : String
  deriving DecidableEq, Repr

/-- `searchBody` (lines 1386-1494).  Fails without touching the state when
there is no body, the body is not searchable, or this player already
searched it.  Otherwise the body-search narrator is consulted: on a
successful narrator response the found items go to the player's inventory
and the body is only marked as searched; when the narrator call throws,
the local fallback hands out the stored loot and possessions, clears them,
marks the body searched and drops the items into the room's item list. -/
def searchBody (bodyId : String) (s : St) : St × SearchRes :=
  match getRoom s.gs s.gs.player.currentRoomId with
  | none => (s, ⟨false, [], "No bodies to search here."⟩)
  | some room =>
    if room.deadBodies.isEmpty then (s, ⟨false, [], "No bodies to search here."⟩) else
    match room.deadBodies.findIdx? (fun b =>
        b.id == bodyId || lowIncludes b.name bodyId) with
    | none => (s, ⟨false, [], "Body not found."⟩)
    | some bodyIndex =>
      match room.deadBodies.get? bodyIndex with
      | none => (s, ⟨false, [], "Body not found."⟩)
      | some body =>
        if !body.bodyState.searchable then
          (s, ⟨false, [], "The body of " ++ body.name ++
            " is too decomposed to search effectively."⟩)
        else if body.searchedBy.contains s.gs.player.name then
          (s, ⟨false, [], "You have already searched " ++ body.name ++ "'s body."⟩)
        else
          let roomId := s.gs.player.currentRoomId
          let (out, s) := popSearch s
          match out with
          | SearchOut.api success itemsFound witnessesReact searchDescription emotionalImpact =>
            if success then
              let mark := fun (b : DeadBody) =>
                { b with searchedBy := b.searchedBy ++ [s.gs.player.name] }
              let s := updRoom roomId
                (fun r => { r with deadBodies := listUpd bodyIndex mark r.deadBodies }) s
              let s := itemsFound.foldl (fun s it =>
                let s := updPlayer (fun p => { p with inventory := p.inventory ++ [it] }) s
                addEvent "action" ("Found " ++ it.name ++ " on the body") s) s
              let witnesses := getNPCWitnessesInRoom room
              let s := if witnessesReact && !witnesses.isEmpty then
                  pushEmoEvent ⟨"player_searches_body",
                    "Player searched the body of " ++ body.name, witnesses, 5⟩ s
                else s
              let s := addEvent "action" searchDescription s
              let s := if emotionalImpact.length > 20 then
                  addEvent "system" emotionalImpact s
                else s
              (s, ⟨true, itemsFound, searchDescription⟩)
            else
              (s, ⟨false, [],
                if searchDescription == "" then "Failed to search the body."
                else searchDescription⟩)
          | SearchOut.threw =>
            let foundItems := body.originalLoot ++ body.originalPossessions
            let markClear := fun (b : DeadBody) =>
              { b with
                searchedBy := b.searchedBy ++ [s.gs.player.name],
                originalLoot := ([] : List Item),
                originalPossessions := ([] : List Item) }
            let s := updRoom roomId
              (fun r => { r with deadBodies := listUpd bodyIndex markClear r.deadBodies }) s
            let s := if foundItems.isEmpty then s else
              updRoom roomId (fun r => { r with items := r.items ++ foundItems }) s
            let message := if foundItems.isEmpty then
                "You search " ++ body.name ++ "'s body but find nothing of value."
              else
                "You search " ++ body.name ++ "'s body and find: " ++
                  String.intercalate ", " (foundItems.map Item.name)
            let s := addEvent "action" message s
            (s, ⟨true, foundItems, message⟩)

/-- `handleSearchAction` (lines 1569-1582). -/
def handleSearchAction (target : String) (s : St) : St × Bool × String :=
  match getRoom s.gs s.gs.player.currentRoomId with
  | none => (s, false, "Cannot search here.")
  | some room =>
    if !room.deadBodies.isEmpty then
      let (s, res) := searchBody target s
      (s, res.success, res.message)
    else
      (s, false, "Nothing to search here.")

/-! ### Combat decisions and `handleAttack`

The source file contains a genuine slip here: lines 1848 and 1875 read the
undefined identifier `isOuutnumbered` (the computed constant is named
`isOutnumbered`).  Reaching either line at runtime raises a
`ReferenceError`, which propagates out of `handleAttack` and is caught by
`processAction`'s catch-all (the turn aborts, keeping all mutations made
so far).  The two condition checkers therefore return `Option Bool`, with
`none` marking the crash; thanks to `&&` short-circuiting the crash only
happens when the health-percentage guard in front of the typo is true. -/

/-- Update the monster at index `i` of room `roomId`. -/
def updMonster (roomId : String) (i : Nat) (f : Monster → Monster) (s : St) : St :=
  updRoom roomId (fun r => { r with monsters := listUpd i f r.monsters }) s

/-- `areAllied` (lines 1893-1907). -/
def areAllied (monster1 monster2 : Monster) : Bool :=
  match monster1.occupation, monster2.occupation with
  | some o1, some o2 => o1 == o2
  | _, _ =>
    match monster1.rapport with
    | some rm =>
      match rm.lookup monster2.id with
      | some r => r.level > 20
      | none => false
    | none => false

/-- `isMonsterOutnumbered` (lines 1880-1891).  Its value is only ever used
through the misspelt identifier, so it never influences behaviour; it is
kept for completeness. -/
def isMonsterOutnumbered (monster : Monster) (room : Room) (p : Player) : Bool :=
  let allies := (room.monsters.filter (fun m =>
    m.id != monster.id && (m.behavior == monster.behavior || areAllied m monster))).length
  let playerThreatLevel : Nat := if p.equippedWeapon.isSome then 2 else 1
  playerThreatLevel > allies + 1

/-- `monster.health / monster.maxHealth * 100` (exact rational arithmetic;
every monster has positive max health, so the JavaScript value is an
ordinary finite double). -/
def healthPercentage (monster : Monster) : ℚ :=
  (monster.health : ℚ) / (monster.maxHealth : ℚ) * 100

/-- `checkSurrenderConditions` (lines 1854-1878); `none` is the
`ReferenceError` raised by the `isOuutnumbered` typo on line 1875, reached
exactly when the earlier returns did not fire and the health percentage is
below 30. -/
def checkSurrenderConditions (monster : Monster) : Option Bool :=
  if !isHumanoidNPC monster then some false
  else
    let hp := healthPercentage monster
    let isCowardly := monster.personalityTraits.any (fun t =>
      strIncludes (strLower t) "coward" || strIncludes (strLower t) "pragmatic")
    let isProud := monster.personalityTraits.any (fun t =>
      strIncludes (strLower t) "proud" || strIncludes (strLower t) "honor")
    if hp < 10 && !isProud then some true
    else if hp < 25 && isCowardly then some true
    else if hp < 30 then none
    else some false

/-- `checkRetreatConditions` (lines 1822-1852); `none` is the
`ReferenceError` of line 1848.  The final condition mirrors the JavaScript
truthiness chain `isFearful && currentEmotion?.intensity && intensity > 7`. -/
def checkRetreatConditions (monster : Monster) : Option Bool :=
  if !isHumanoidNPC monster then some false
  else
    let hp := healthPercentage monster
    let isCowardly := monster.personalityTraits.any (fun t =>
      strIncludes (strLower t) "coward" || strIncludes (strLower t) "cautious")
    let isFearful := match monster.currentEmotion with
      | some e => e.primary.emotion == "fearful" || e.primary.emotion == "suspicious"
      | none => false
    if hp < 20 then some true
    else if hp < 40 && (isCowardly || isFearful) then some true
    else if hp < 50 then none
    else if isFearful && (match monster.currentEmotion with
        | some e => e.intensity != 0 && e.intensity > 7
        | none => false) then some true
    else some false

/-- Outcome record of `handleCombatDecision`. -/
structure DecisionOut where
  dtype : String
  success : Bool
  message : String
  deriving DecidableEq, Repr

/-- `executeRetreat` (lines 1909-1948); consumes one `Math.random()` draw.
The flee message keeps the stray trailing quote of the source string. -/
def executeRetreat (monster : Monster) (room : Room) (roomId : String)
    (monsterIndex : Nat) (s : St) : St × DecisionOut :=
  let hasEscapeRoute := room.doors.length > 1
  let retreatChance : ℚ := if hasEscapeRoute then 7/10 else 3/10
  let modifiedChance := retreatChance * (healthPercentage monster / 100)
  let (rand, s) := popRand s
  if rand < modifiedChance then
    let s := updMonster roomId monsterIndex (fun m =>
      { m with currentEmotion := m.currentEmotion.map (fun e =>
        { e with primary := ⟨"fearful", "Fled from combat"⟩, intensity := 9 }) }) s
    let s := pushEmoEvent ⟨"monster_retreat", monster.name ++ " fled from combat",
      getNPCWitnessesInRoom room, 5⟩ s
    (s, ⟨"retreat", true, monster.name ++ " turns and flees through one of the exits!\""⟩)
  else
    (s, ⟨"retreat", false, monster.name ++ " tries to flee but you block their escape!"⟩)

/-- `generateSurrenderMessage` (lines 2004-2021). -/
def generateSurrenderMessage (monster : Monster) : String :=
  let isCowardly := monster.personalityTraits.any (fun t => strIncludes (strLower t) "coward")
  let isProud := monster.personalityTraits.any (fun t => strIncludes (strLower t) "proud")
  if isCowardly then
    monster.name ++ " drops their weapon and falls to their knees. \"Please! I yield! I don't want to die! Take whatever you want!\""
  else if isProud then
    monster.name ++ " lowers their weapon with visible reluctance. \"I... I surrender. You have bested me in combat.\""
  else
    monster.name ++ " raises their hands in surrender. \"Enough! I surrender! You win!\""

/-- `executeSurrender` (lines 1950-2002): fearful/sad emotional state, a
first rapport record for the player at level -10 when the NPC has a
rapport map without one, and a witnessed surrender event. -/
def executeSurrender (monster : Monster) (room : Room) (roomId : String)
    (monsterIndex : Nat) (s : St) : St × DecisionOut :=
  let s := updMonster roomId monsterIndex (fun m =>
    { m with currentEmotion := m.currentEmotion.map (fun e =>
      { e with
        primary := ⟨"fearful", "Surrendered in combat"⟩,
        secondary := some ⟨"sad", "Defeated and humiliated"⟩,
        intensity := 8 }) }) s
  let surrenderRecord : RapportRecord :=
    { entityId := s.gs.player.name, level := -10, category := "unfriendly",
      lastInteraction := s.now, trustLevel := 2, fearLevel := 8, respectLevel := 3 }
  let s := updMonster roomId monsterIndex (fun m =>
    match m.rapport with
    | some rm =>
      if (rm.lookup s.gs.player.name).isNone then
        { m with rapport := some (mapSet s.gs.player.name surrenderRecord rm) }
      else m
    | none => m) s
  let s := pushEmoEvent ⟨"monster_surrender", monster.name ++ " surrendered to the player",
    getNPCWitnessesInRoom room, 6⟩ s
  (s, ⟨"surrender", true, generateSurrenderMessage monster⟩)

/-- `handleCombatDecision` (lines 2023-2038): surrender is checked before
retreat, fight is the default; `none` propagates the `ReferenceError` of
the misspelt `isOuutnumbered`. -/
def handleCombatDecision (monster : Monster) (room : Room) (roomId : String)
    (monsterIndex : Nat) (s : St) : Option (St × DecisionOut) :=
  match checkSurrenderConditions monster with
  | none => none
  | some true => some (executeSurrender monster room roomId monsterIndex s)
  | some false =>
    match checkRetreatConditions monster with
    | none => none
    | some true => some (executeRetreat monster room roomId monsterIndex s)
    | some false => some (s, ⟨"fight", true, ""⟩)

/-- `handleAttack` (lines 606-676).  The returned `Bool` is `false` when
the call raised (the `isOuutnumbered` `ReferenceError`), in which case the
state keeps every mutation made before the raise, as JavaScript mutation
does; `processAction` catches it.  The room argument is the room object
`executeLLMAction` captured at its start. -/
def handleAttack (targetName roomId : String) (s : St) : St × Bool :=
  match getRoom s.gs roomId with
  | none => (s, false)
  | some room =>
    match room.monsters.findIdx? (fun m => lowIncludes m.name targetName) with
    | none => (s, true)
    | some monsterIndex =>
      match room.monsters.get? monsterIndex with
      | none => (s, true)
      | some monster =>
        let damage := calculatePlayerDamage s.gs.player
        let monster' := { monster with health := monster.health - damage }
        let s := updMonster roomId monsterIndex (fun _ => monster') s
        let s := if damage > 0 then
            addEvent "combat" ("Dealt " ++ toString damage ++ " damage to " ++ monster.name) s
          else s
        if monster'.health ≤ 0 then
          let s := updRoom roomId (fun r =>
            { r with monsters := r.monsters.eraseIdx monsterIndex }) s
          let s := addEvent "combat" (monster.name ++ " has been defeated!") s
          let s := createPersistentBody monster' roomId "killed by player" s
          let xpGain := max 5 (monster.maxHealth * 2)
          let s := gainExperience xpGain ("Defeated " ++ monster.name) s
          let witnesses := match getRoom s.gs roomId with
            | some r => getNPCWitnessesInRoom r
            | none => []
          let s := pushEmoEvent ⟨"monster_death_by_player",
            monster.name ++ " was killed by the player", witnesses, 7⟩ s
          (s, true)
        else
          let roomNow := (getRoom s.gs roomId).getD room
          match handleCombatDecision monster' roomNow roomId monsterIndex s with
          | none => (s, false)
          | some (s, dec) =>
            if dec.dtype == "retreat" then
              let s := addEvent "combat" dec.message s
              let s := if dec.success then
                  updRoom roomId (fun r =>
                    { r with monsters := r.monsters.eraseIdx monsterIndex }) s
                else s
              (s, true)
            else if dec.dtype == "surrender" then
              let s := addEvent "combat" dec.message s
              let s := updMonster roomId monsterIndex (fun m =>
                { m with behavior := "neutral" }) s
              let s := updMonster roomId monsterIndex (fun m =>
                { m with currentEmotion := m.currentEmotion.map (fun e =>
                  { e with primary := ⟨"fearful", "Surrendered to player"⟩,
                           intensity := 8 }) }) s
              (s, true)
            else
              let actualDamageTaken := calculateDamageTaken s.gs.player monster.damage
              let s := updPlayer (fun p => { p with health := p.health - actualDamageTaken }) s
              let s := if actualDamageTaken > 0 then
                  addEvent "combat" (monster.name ++ " deals " ++
                    toString actualDamageTaken ++ " damage to you!") s
                else s
              if s.gs.player.health ≤ 0 then
                let s := { s with gs := { s.gs with gameOver := true } }
                (addEvent "system" "You have been defeated!" s, true)
              else (s, true)

/-! ### Items (`removeItemFromInventory`, `removeItemFromRoom`,
`handleTakeItem`, `handleUseItem`), crafting -/

/-- The item-name match of the removal helpers: exact case-insensitive
equality or case-insensitive substring. -/
def itemNameMatches (item : Item) (itemName : String) : Bool :=
  lowEq item.name itemName || lowIncludes item.name itemName

/-- Remove (or decrement) the item at index `i`. -/
def removeOrDecrement (i : Nat) (l : List Item) : List Item :=
  match l.get? i with
  | some item =>
    if item.stackable && item.quantity > 1 then
      listUpd i (fun it => { it with quantity := it.quantity - 1 }) l
    else
      l.eraseIdx i
  | none => l

/-- `removeItemFromInventory` (lines 351-367). -/
def removeItemFromInventory (itemName : String) (s : St) : St × Bool :=
  match s.gs.player.inventory.findIdx? (fun it => itemNameMatches it itemName) with
  | some i => (updPlayer (fun p => { p with inventory := removeOrDecrement i p.inventory }) s, true)
  | none => (s, false)

/-- `removeItemFromRoom` (lines 369-387); the current room always exists at
its call sites. -/
def removeItemFromRoom (itemName : String) (s : St) : St × Bool :=
  match getRoom s.gs s.gs.player.currentRoomId with
  | none => (s, false)
  | some room =>
    match room.items.findIdx? (fun it => itemNameMatches it itemName) with
    | some i =>
      (updRoom s.gs.player.currentRoomId (fun r =>
        { r with items := removeOrDecrement i r.items }) s, true)
    | none => (s, false)

/-- One `itemsToRemove` entry of `executeLLMAction` (lines 227-236):
inventory first, then the current room. -/
def removeItemBoth (itemName : String) (s : St) : St :=
  let (s, removed) := removeItemFromInventory itemName s
  if removed then s else (removeItemFromRoom itemName s).1

/-- One `itemsToAdd` entry (lines 239-248): a fresh uuid when the payload
carries none (modelled as the empty id), append, log. -/
def addItemIntent (item : Item) (s : St) : St :=
  let (item, s) := if item.id == "" then
      let (u, s) := popUuid s
      ({ item with id := u }, s)
    else (item, s)
  let s := updPlayer (fun p => { p with inventory := p.inventory ++ [item] }) s
  addEvent "action" ("Acquired " ++ item.name) s

/-- `handleTakeItem` (lines 502-538), acting on the room object captured at
the start of `executeLLMAction`: the "all"/"everything" sentinel sweeps
every room item into the inventory; otherwise exact match first, then
substring match, and silence when nothing matches. -/
def handleTakeItem (itemName roomId : String) (s : St) : St :=
  match getRoom s.gs roomId with
  | none => s
  | some room =>
    if strLower itemName == "all" || strLower itemName == "everything" then
      let itemsToTake := room.items
      let s := updRoom roomId (fun r => { r with items := [] }) s
      let s := updPlayer (fun p => { p with inventory := p.inventory ++ itemsToTake }) s
      if !itemsToTake.isEmpty then
        addEvent "action" ("Picked up: " ++
          String.intercalate ", " (itemsToTake.map Item.name)) s
      else s
    else
      let exactIdx := room.items.findIdx? (fun it => lowEq it.name itemName)
      let idx := match exactIdx with
        | some i => some i
        | none => room.items.findIdx? (fun it => lowIncludes it.name itemName)
      match idx with
      | none => s
      | some i =>
        match room.items.get? i with
        | none => s
        | some item =>
          let s := updRoom roomId (fun r => { r with items := r.items.eraseIdx i }) s
          let s := updPlayer (fun p => { p with inventory := p.inventory ++ [item] }) s
          addEvent "action" ("Picked up " ++ item.name) s

/-- `handleUseItem` (lines 540-604): consumables in the inventory heal
(capped at max health) and are decremented/removed; a room-sourced healing
consumable is consumed in place; room keys/weapons/tools are transferred
to the inventory; anything else is left to the narrative layer. -/
def handleUseItem (itemName : String) (s : St) : St :=
  match s.gs.player.inventory.findIdx? (fun it => lowIncludes it.name itemName) with
  | some inventoryIndex =>
    match s.gs.player.inventory.get? inventoryIndex with
    | none => s
    | some item =>
      if item.itype == "consumable" then
        let s := match item.props.healing with
          | some h =>
            let s := updPlayer (fun p =>
              { p with health := min (p.health + h) p.maxHealth }) s
            addEvent "action" ("Used " ++ item.name ++ " and restored " ++
              toString h ++ " health") s
          | none => s
        updPlayer (fun p =>
          { p with inventory :=
              let dec := listUpd inventoryIndex
                (fun it => { it with quantity := it.quantity - 1 }) p.inventory
              match dec.get? inventoryIndex with
              | some it => if it.quantity ≤ 0 then dec.eraseIdx inventoryIndex else dec
              | none => dec }) s
      else s
  | none =>
    match getRoom s.gs s.gs.player.currentRoomId with
    | none => s
    | some room =>
      match room.items.findIdx? (fun it => lowIncludes it.name itemName) with
      | none => s
      | some roomItemIndex =>
        match room.items.get? roomItemIndex with
        | none => s
        | some item =>
          if item.itype == "consumable" && item.props.healing.isSome then
            let h := item.props.healing.getD 0
            let s := updPlayer (fun p =>
              { p with health := min (p.health + h) p.maxHealth }) s
            let s := addEvent "action" ("Used " ++ item.name ++
              " from the room and restored " ++ toString h ++ " health") s
            updRoom s.gs.player.currentRoomId (fun r =>
              { r with items := r.items.eraseIdx roomItemIndex }) s
          else if item.itype == "key" || item.itype == "weapon" || item.itype == "tool" then
            let s := updPlayer (fun p => { p with inventory := p.inventory ++ [item] }) s
            let s := updRoom s.gs.player.currentRoomId (fun r =>
              { r with items := r.items.eraseIdx roomItemIndex }) s
            addEvent "action" ("Picked up and used " ++ item.name) s
          else s

/-- `handleCrafting` (lines 754-794): inventory items whose names occur in
the joined component string, at least two required; the crafting oracle
answers with a crafted item, a refusal, or a raised error. -/
def handleCrafting (itemNames : String) (s : St) : St :=
  let items := s.gs.player.inventory.filter (fun it => lowIncludes itemNames it.name)
  if items.length < 2 then
    addEvent "action" "You need at least two items to craft something." s
  else
    let (out, s) := popCraft s
    match out with
    | CraftOut.ok craftedItem =>
      let s := items.foldl (fun s item =>
        match s.gs.player.inventory.findIdx? (fun i => i.id == item.id) with
        | some idx => updPlayer (fun p => { p with inventory := p.inventory.eraseIdx idx }) s
        | none => s) s
      let s := updPlayer (fun p => { p with inventory := p.inventory ++ [craftedItem] }) s
      let s := addEvent "action" ("Successfully crafted " ++ craftedItem.name ++ "!") s
      let craftingXP := 10 + ((s.gs.player.level : Int) * 2)
      gainExperience craftingXP "Successful crafting" s
    | CraftOut.noResult => addEvent "action" "These items cannot be combined." s
    | CraftOut.threw => addEvent "action" "The crafting attempt failed mysteriously." s

/-! ### World graph (`getOppositeDirection`, `generateNewRoom`,
`handleMovement`) -/

/-- `getOppositeDirection` (lines 490-500). -/
def getOppositeDirection (direction : String) : String :=
  let d := strLower direction
  if d == "north" then "south"
  else if d == "south" then "north"
  else if d == "east" then "west"
  else if d == "west" then "east"
  else if d == "up" then "down"
  else if d == "down" then "up"
  else "south"

/-- Link the first door facing `direction` back to `target`
(`backDoor.leadsTo = ...` after a `find`). -/
def linkFirstDoor (direction target : String) : List Door → List Door
  | [] => []
  | d :: rest =>
    if d.direction == direction then { d with leadsTo := some target } :: rest
    else d :: linkFirstDoor direction target rest

/-- The fallback-door loop of `generateNewRoom`'s catch branch (lines
466-476): one unlocked, unlinked forward door per previously-drawn extra
direction, appended after the accumulated back door. -/
def mkFallbackDoors (dirs : List String) (acc : List Door) (s : St) : List Door × St :=
  match dirs with
  | [] => (acc, s)
  | dir :: rest =>
    let (u, s) := popUuid s
    let fwd : Door := {
      id := u, direction := dir,
      description := "A dark passage leading further into the dungeon",
      locked := false, leadsTo := none }
    mkFallbackDoors rest (acc ++ [fwd]) s

/-- `generateNewRoom` (lines 423-488).  The 1-3 randomly drawn extra
directions and the generator response are oracle inputs.  On success only
the door already facing the opposite direction (if any) is linked back; on
failure the deterministic fallback room has the linked back door plus one
unlinked door per drawn extra direction. -/
def generateNewRoom (fromDirection : String) (s : St) : Room × St :=
  let oppositeDirection := getOppositeDirection fromDirection
  let (additionalDoors, s) := popExtraDirs s
  let (generated, s) := popGenRoom s
  match generated with
  | some generatedRoom =>
    let linked := linkFirstDoor oppositeDirection s.gs.player.currentRoomId generatedRoom.doors
    ({ generatedRoom with doors := linked }, s)
  | none =>
    let (backId, s) := popUuid s
    let backDoor : Door := {
      id := backId, direction := oppositeDirection,
      description := "The way back", locked := false,
      leadsTo := some s.gs.player.currentRoomId }
    let (fallbackDoors, s) := mkFallbackDoors additionalDoors [backDoor] s
    let (roomId, s) := popUuid s
    let fallbackRoom : Room := {
      id := roomId, name := "Empty Chamber",
      description := "A bare stone chamber with rough-hewn walls. Despite its emptiness, several passages lead deeper into the dungeon.",
      items := [], monsters := [], doors := fallbackDoors,
      visited := false, specialFeatures := [], deadBodies := [] }
    (fallbackRoom, s)

/-- `handleMovement` (lines 389-421): locked doors stop with a message, an
unlinked door generates the destination on the spot, moving awards the
one-time first-visit exploration bonus. -/
def handleMovement (direction : String) (s : St) : St × Bool :=
  match getRoom s.gs s.gs.player.currentRoomId with
  | none => (s, false)
  | some room =>
    match room.doors.find? (fun d => lowEq d.direction direction) with
    | none => (s, true)
    | some door =>
      if door.locked then
        (addEvent "action" ("The door to the " ++ direction ++ " is locked.") s, true)
      else
        let (target, s) := match door.leadsTo with
          | some t => (t, s)
          | none =>
            let originId := s.gs.player.currentRoomId
            let (newRoom, s) := generateNewRoom direction s
            let s := updRoom originId (fun r =>
              { r with doors := linkFirstDoor door.direction newRoom.id r.doors }) s
            let s := setRoom newRoom s
            (newRoom.id, s)
        let s := updPlayer (fun p => { p with currentRoomId := target }) s
        match getRoom s.gs target with
        | none => (s, false)
        | some newRoom =>
          let s := if !newRoom.visited then
              let s := updRoom target (fun r => { r with visited := true }) s
              let explorationXP := 15 + ((s.gs.player.level : Int) * 3)
              gainExperience explorationXP ("Discovered " ++ newRoom.name) s
            else s
          (addEvent "discovery" ("Entered " ++ newRoom.name) s, true)

/-! ### Conversation system and intent classification -/

/-- `isTalkAction` (lines 1585-1589). -/
def isTalkAction (details : String) : Bool :=
  ["talk", "speak", "chat", "greet", "hello", "hi", "converse", "say"].any
    (fun k => strIncludes (strLower details) k)

/-- `isMovementAction` (lines 872-876). -/
def isMovementAction (details : String) : Bool :=
  ["go", "move", "walk", "run", "enter", "through", "door", "exit", "head"].any
    (fun k => strIncludes (strLower details) k)

/-- `extractDirection` (lines 878-898). -/
def extractDirection (details : String) (s : St) : Option String :=
  let lowerDetails := strLower details
  match ["north", "south", "east", "west", "up", "down"].find?
      (fun d => strIncludes lowerDetails d) with
  | some d => some d
  | none =>
    if strIncludes lowerDetails "door" || strIncludes lowerDetails "exit" then
      match getRoom s.gs s.gs.player.currentRoomId with
      | some room =>
        match room.doors with
        | [d] => some d.direction
        | _ => none
      | none => none
    else none

/-- `extractTalkTarget` (lines 1755-1770). -/
def extractTalkTarget (details : String) (s : St) : Option String :=
  match getRoom s.gs s.gs.player.currentRoomId with
  | none => none
  | some room =>
    (room.monsters.find? (fun m =>
      isHumanoidNPC m &&
      (splitWords (strLower m.name)).any (fun w => strIncludes (strLower details) w))).map
      Monster.name

/-- Update the monster with id `npcId` in the player's current room. -/
def updMonsterById (npcId : String) (f : Monster → Monster) (s : St) : St :=
  updRoom s.gs.player.currentRoomId (fun r =>
    { r with monsters := r.monsters.map (fun m => if m.id == npcId then f m else m) }) s

/-- The conversation-start oracle payload (`api.startConversation`). -/
structure ConvStartR where
  mood : String
  topics : List String
  deriving DecidableEq, Repr

/-- The per-exchange conversation oracle payload (`api.processConversation`). -/
structure ConvResp where
  npcResponse : String
  rapportChange : Option Int
  emotionalChange : Option Emo
  newTopics : List String
  memoryFormed : Option String
  lastPlayerMessage : Option String
  deriving DecidableEq, Repr

/-- The two conversation collaborator calls a talk turn can make. -/
structure TalkApi where
  start : Option ConvStartR
  conv : Option ConvResp
  deriving DecidableEq, Repr

/-- `startConversation` (lines 1675-1731): on a successful collaborator
response, initialise the conversation state, a default curious emotion
when none exists, and a lazily created rapport map holding a level-0
neutral record for the player when absent.  A raised collaborator call is
caught and leaves the state untouched. -/
def startConversation (npcId : String) (oracle : Option ConvStartR) (s : St) : St :=
  match getRoom s.gs s.gs.player.currentRoomId with
  | none => s
  | some _ =>
    match oracle with
    | none => s
    | some r =>
      let s := updMonsterById npcId (fun m =>
        { m with conversationState := some {
            isActive := true, turn := 0,
            mood := if r.mood == "" then "cautious" else r.mood,
            topics := r.topics, lastPlayerMessage := none } }) s
      let s := updMonsterById npcId (fun m =>
        if m.currentEmotion.isNone then
          { m with currentEmotion := some {
              primary := ⟨"curious", "Player approached"⟩, secondary := none,
              intensity := 5, stability := 5, duration := -1 } }
        else m) s
      let s := updMonsterById npcId (fun m =>
        match m.rapport with
        | none => { m with rapport := some [] }
        | some _ => m) s
      let initialRecord : RapportRecord := {
        entityId := s.gs.player.name, level := 0, category := "neutral",
        lastInteraction := s.now, trustLevel := 5, fearLevel := 0, respectLevel := 5 }
      updMonsterById npcId (fun m =>
        match m.rapport with
        | some rm =>
          if (rm.lookup s.gs.player.name).isNone then
            { m with rapport := some (mapSet s.gs.player.name initialRecord rm) }
          else m
        | none => m) s

/-- `updateConversationState` (lines 1733-1746). -/
def updateConversationState (npcId : String) (resp : ConvResp) (s : St) : St :=
  match getRoom s.gs s.gs.player.currentRoomId with
  | none => s
  | some room =>
    match room.monsters.find? (fun m => m.id == npcId) with
    | none => s
    | some npc =>
      match npc.conversationState with
      | none => s
      | some _ =>
        let s := updMonsterById npcId (fun m =>
          { m with conversationState := m.conversationState.map (fun c =>
            { c with
              turn := c.turn + 1,
              lastPlayerMessage := resp.lastPlayerMessage,
              topics := c.topics ++ resp.newTopics }) }) s
        match resp.memoryFormed with
        | some memory =>
          addEvent "system" (memory ++ " (Memory formed for NPC " ++ npcId ++ ")") s
        | none => s

/-- The `DungeonMasterResponse` pair the claims observe. -/
structure ActResp where
  message : String
  success : Bool
  deriving DecidableEq, Repr

/-- A `PlayerAction`: its `type` tag and `details` text (the trailing `T`
avoids clashing with the `Player` structure namespace; `action.details ||
''` is pre-applied, absent details being the empty string). -/
structure PlayerActionT where
  ptype : String
  details : String
  deriving DecidableEq, Repr

/-- `handleTalkAction` (lines 1591-1673).  A completed talk turn increments
the turn counter and returns; it never reaches the status-effect or
body-decomposition ticks of `processAction`. -/
def handleTalkAction (a : PlayerActionT) (api : TalkApi) (s : St) : St × ActResp :=
  match getRoom s.gs s.gs.player.currentRoomId with
  | none => (s, ⟨"The conversation doesn't go as expected...", false⟩)
  | some room =>
    let targetNPC := match extractTalkTarget a.details s with
      | some targetName =>
        room.monsters.find? (fun m =>
          isHumanoidNPC m && lowIncludes m.name targetName)
      | none =>
        match room.monsters with
        | [m] => if isHumanoidNPC m then some m else none
        | _ => none
    match targetNPC with
    | none => (s, ⟨"There is no one here to talk to.", false⟩)
    | some npc =>
      let s := if npc.conversationState.isNone then
          startConversation npc.id api.start s
        else s
      match api.conv with
      | none => (s, ⟨"The conversation doesn't go as expected...", false⟩)
      | some resp =>
        let s := updateConversationState npc.id resp s
        let s := addEvent "action"
          ("You talk to " ++ npc.name ++ ": \"" ++ a.details ++ "\"") s
        let s := addEvent "action" (npc.name ++ ": \"" ++ resp.npcResponse ++ "\"") s
        let s := match resp.rapportChange with
          | some c => if c != 0 then updatePlayerRapport npc.id c s else s
          | none => s
        let s := match resp.emotionalChange with
          | some e => updMonsterById npc.id (fun m => { m with currentEmotion := some e }) s
          | none => s
        let s := { s with gs := { s.gs with currentTurn := s.gs.currentTurn + 1 } }
        (s, ⟨npc.name ++ ": \"" ++ resp.npcResponse ++ "\"", true⟩)

/-! ### The intent applier (`executeLLMAction`, `applyLLMActions`,
`processAction`) -/

/-- The `stateChanges` plus the optional batch fields of one intended
action from the LLM response.  Absent arrays are the empty list (the
only behavioural difference absence makes is for `itemsToCraft` and
`moveDirection`, which therefore stay `Option`). -/
structure Intent where
  stateChanges : Option StateChanges
  itemsToRemove : List String
  itemsToAdd : List Item
  itemsToTake : List String
  itemsToUse : List String
  moveDirection : Option String
  targetsToAttack : List String
  itemsToCraft : Option (List String)
  bodiesToSearch : List String
  customEffects : List (String × String)
  deriving DecidableEq, Repr

/-- The attack loop of `executeLLMAction` (lines 272-276); a raised
`ReferenceError` stops the loop and propagates. -/
def attackFold (targets : List String) (roomId : String) (s : St) : St × Bool :=
  match targets with
  | [] => (s, true)
  | t :: rest =>
    match handleAttack t roomId s with
    | (s, true) => attackFold rest roomId s
    | (s, false) => (s, false)

/-- `executeLLMAction` (lines 217-295): the fixed sub-step order of one
intent.  `room0` is the current room captured at entry — item pickups and
attacks keep using it even after a movement sub-step, as the source does.
The `Bool` is `false` when a sub-step raised. -/
def executeLLMAction (a : Intent) (s : St) : St × Bool :=
  match getRoom s.gs s.gs.player.currentRoomId with
  | none => (s, false)
  | some room0 =>
    let s := match a.stateChanges with
      | some ch => applyStateChanges ch s
      | none => s
    let s := a.itemsToRemove.foldl (fun s n => removeItemBoth n s) s
    let s := a.itemsToAdd.foldl (fun s it => addItemIntent it s) s
    let s := a.itemsToTake.foldl (fun s n => handleTakeItem n room0.id s) s
    let s := a.itemsToUse.foldl (fun s n => handleUseItem n s) s
    match (match a.moveDirection with
           | some d => handleMovement d s
           | none => (s, true)) with
    | (s, false) => (s, false)
    | (s, true) =>
      match attackFold a.targetsToAttack room0.id s with
      | (s, false) => (s, false)
      | (s, true) =>
        let s := match a.itemsToCraft with
          | some ns => handleCrafting (String.intercalate " and " ns) s
          | none => s
        let s := a.bodiesToSearch.foldl (fun s t =>
          let (s, res) := handleSearchAction t s
          addEvent "action" res.2 s) s
        let s := a.customEffects.foldl (fun s ce =>
          addEvent (if ce.1 == "" then "action" else ce.1)
            (if ce.2 == "" then "Something strange happens..." else ce.2) s) s
        (s, true)

/-- `applyLLMActions` (lines 209-215): the intents in array order, a raise
aborting the rest of the turn. -/
def applyLLMActions (intents : List Intent) (s : St) : St × Bool :=
  match intents with
  | [] => (s, true)
  | a :: rest =>
    match executeLLMAction a s with
    | (s, true) => applyLLMActions rest s
    | (s, false) => (s, false)

/-- The `api.processPlayerAction` response (`success`, `narrative`,
`intendedActions`); `none` is the call throwing. -/
structure ProcResp where
  success : Bool
  narrative : String
  intendedActions : List Intent
  deriving DecidableEq, Repr

/-- The main-turn collaborator oracle. -/
structure TurnApi where
  resp : Option ProcResp
  deriving DecidableEq, Repr

/-- The movement pre-generation step of `processAction` (lines 126-139):
for a move-flavoured action through an unlocked, unlinked door, generate
the destination room up front, link the door, and register the room. -/
def pregenStep (a : PlayerActionT) (currentRoom : Room) (s : St) : St :=
  if a.ptype == "move" || (a.ptype == "custom" && isMovementAction a.details) then
    match extractDirection a.details s with
    | some direction =>
      match currentRoom.doors.find? (fun d => lowEq d.direction direction) with
      | some door =>
        if !door.locked && door.leadsTo.isNone then
          let originId := s.gs.player.currentRoomId
          let (newRoomData, s) := generateNewRoom direction s
          let s := updRoom originId (fun r =>
            { r with doors := linkFirstDoor door.direction newRoomData.id r.doors }) s
          setRoom newRoomData s
        else s
      | none => s
    | none => s
  else s

/-- The logging plus intent application of the non-talk path of
`processAction` (lines 171-180): player input and narrative are logged
first, and the intents are applied only on `success`. -/
def stageApply (a : PlayerActionT) (resp : ProcResp) (s : St) : St × Bool :=
  let s := addEvent "player" (if a.details == "" then a.ptype else a.details) s
  let s := addEvent "action" resp.narrative s
  if resp.success then applyLLMActions resp.intendedActions s else (s, true)

/-- Advance the turn counter (`this.gameState.currentTurn++`). -/
def incTurn (s : St) : St :=
  { s with gs := { s.gs with currentTurn := s.gs.currentTurn + 1 } }

/-- The once-per-turn Status Effect Ledger tick, with its ghost counter. -/
def tickStatusE (e : Exec) : Exec :=
  { e with st := updateStatusEffectsSt e.st, statusTicks := e.statusTicks + 1 }

/-- The once-per-turn Corpse Lifecycle tick for the player's current room,
with its ghost counter. -/
def tickBodyE (e : Exec) : Exec :=
  { e with st := updateBodyDecomposition e.st, bodyTicks := e.bodyTicks + 1 }

/-- The message of `processAction`'s catch-all. -/
def confusedMsg : String :=
  "The dungeon master is confused by your action. Try something else."

/-- `processAction` (lines 113-207): the turn coordinator.  Talk-flavoured
actions are fully delegated to `handleTalkAction` and return without the
per-turn ticks.  Every other action pre-generates a room when needed,
consults the action interpreter, applies the intents on success, and —
unless something raised, which the catch-all turns into the "confused"
response with the turn counter untouched — advances the turn counter once
and runs each of the two ticks exactly once. -/
def processAction (a : PlayerActionT) (api : TurnApi) (talk : TalkApi) (e : Exec) :
    Exec × ActResp :=
  match getRoom e.st.gs e.st.gs.player.currentRoomId with
  | none => (e, ⟨confusedMsg, false⟩)
  | some currentRoom =>
    if a.ptype == "talk" || (a.ptype == "custom" && isTalkAction a.details) then
      let (s, r) := handleTalkAction a talk e.st
      ({ e with st := s }, r)
    else
      let s := pregenStep a currentRoom e.st
      match api.resp with
      | none => ({ e with st := s }, ⟨confusedMsg, false⟩)
      | some resp =>
        match stageApply a resp s with
        | (s, false) => ({ e with st := s }, ⟨confusedMsg, false⟩)
        | (s, true) =>
          let e := { e with st := incTurn s }
          let e := tickStatusE e
          let e := tickBodyE e
          (e, ⟨resp.narrative, resp.success⟩)

/-! ### Derived observers used by the theorems -/

/-- What one status-effect tick does to a single list entry: the permanent
sentinel `-1` is untouched, a duration reaching exactly 0 after the
decrement removes the entry, anything else is decremented. -/
def tickStatusRule (st : StatusEffect) : Option StatusEffect :=
  if st.duration = -1 then some st
  else if st.duration = 1 then none
  else some { st with duration := st.duration - 1 }

/-- The expiry log entries a tick emits: one per status whose duration was
exactly 1, in list order. -/
def expiryEvents (l : List StatusEffect) : List GameEvent :=
  (l.filter (fun st => st.duration == 1)).map
    (fun st => ⟨"system", st.name ++ " has worn off."⟩)

/-- The health change `processStatusEffect` makes: per-turn damage floored
at 0, then per-turn healing capped at `maxHealth`. -/
def effectHealthStep (maxHealth : Int) (h : Int) (st : StatusEffect) : Int :=
  let h := match st.effects >>= Effects.damagePerTurn with
    | some d => max 0 (h - d)
    | none => h
  match st.effects >>= Effects.healingPerTurn with
  | some heal => min maxHealth (h + heal)
  | none => h

/-- The target's health right after `monster.health -= damage` in
`handleAttack` (lines 607-616), the value the defeat test inspects. -/
def attackTargetHealthAfter (targetName roomId : String) (s : St) : Option Int :=
  match getRoom s.gs roomId with
  | none => none
  | some room =>
    (room.monsters.find? (fun m => lowIncludes m.name targetName)).map
      (fun m => m.health - calculatePlayerDamage s.gs.player)

/-- The decomposition level as a function of elapsed milliseconds alone,
for times past the two-hour boundary. -/
def bandLevel (ms : Nat) : Nat :=
  if 604800000 < ms then min 10 (ms / 604800000 + 7)
  else if 86400000 < ms then min 7 (ms / 86400000 + 2)
  else min 2 (ms / 7200000)

/-- The decomposition level of a fixed corpse after a sequence of tick
times: the level-evolution component of iterating `decomposeBody`, started
from a fresh corpse (level 0). -/
def levelAfterTicks (times : List Nat) : Nat :=
  times.foldl decompLevel 0

/-- A fixed corpse carried through a sequence of decomposition ticks. -/
def decomposeFold (times : List Nat) (b : DeadBody) : DeadBody :=
  times.foldl (fun bb t => decomposeBody t bb) b

/-- Read the stored rapport category the same way `getPlayerRapport` reads
the level. -/
def getPlayerRapportCategory (npcId : String) (s : St) : Option String :=
  match getRoom s.gs s.gs.player.currentRoomId with
  | none => none
  | some room =>
    match room.monsters.find? (fun m => m.id == npcId) with
    | none => none
    | some npc =>
      match npc.rapport with
      | none => none
      | some rm => (rm.lookup s.gs.player.name).map RapportRecord.category

/-- The removal log entry `updateBodyDecomposition` emits for a fully
decomposed body. -/
def removalEvent (b : DeadBody) : GameEvent :=
  ⟨"system", "The remains of " ++ b.name ++
    " have completely decomposed and are no longer visible."⟩

/-! ### Concrete fixtures for the claim witnesses and counterexamples -/

/-- A fresh level-1 player, as `createPlayer` builds it. -/
def basePlayer : Player := {
  name := "Hero", health := 100, maxHealth := 100, level := 1,
  experience := 0, experienceToNext := 100, inventory := [],
  equippedWeapon := none, statuses := [], currentRoomId := "start" }

/-- A bare starting room. -/
def baseRoom : Room := {
  id := "start", name := "Dungeon Entrance", description := "",
  items := [], monsters := [], doors := [], visited := true,
  specialFeatures := [], deadBodies := [] }

/-- A bare game state holding the starting room. -/
def baseGs : GameState := {
  player := basePlayer, rooms := [("start", baseRoom)], deadBodiesReg := [],
  currentTurn := 0, gameLog := [], emotionalEvents := [],
  gameOver := false, victory := false }

/-- A bare execution state with empty oracle queues. -/
def baseSt : St := {
  gs := baseGs, uuidCtr := 0, now := 0, rands := [], extraDirsQueue := [],
  genRoomQueue := [], craftQueue := [], searchQueue := [], lootQueue := [] }

/-- A bare execution state over `baseSt` with zeroed tick counters. -/
def baseExec : Exec := { st := baseSt, statusTicks := 0, bodyTicks := 0 }

/-- A plain hostile monster (not a humanoid NPC). -/
def mkBeast (id name : String) (health maxHealth damage : Int) : Monster := {
  id := id, name := name, health := health, maxHealth := maxHealth,
  damage := damage, behavior := "aggressive", loot := [], possessions := [],
  occupation := none, personalityTraits := [], currentEmotion := none,
  conversationState := none, rapport := none }

/-- The C2 witness room: a sturdy rat waits in it. -/
def roomC2 : Room :=
  { baseRoom with monsters := [mkBeast "m1" "Giant Rat" 50 50 10] }

/-- Fixture for C2: a player at 5/100 health facing a sturdy rat. -/
def stC2 : St :=
  { baseSt with gs := { baseGs with
      player := { basePlayer with health := 5 },
      rooms := [("start", roomC2)] } }

/-- The C2 fixture state right after the player's blow is booked: monster
updated and the damage event logged. -/
def c2mid : St :=
  addEvent "combat" ("Dealt " ++ toString (calculatePlayerDamage stC2.gs.player)
      ++ " damage to " ++ (mkBeast "m1" "Giant Rat" 50 50 10).name)
    (updMonster "start" 0 (fun _ =>
      { mkBeast "m1" "Giant Rat" 50 50 10 with
        health := (mkBeast "m1" "Giant Rat" 50 50 10).health
          - calculatePlayerDamage stC2.gs.player }) stC2)

/-- The C3 witness room: an 8-health goblin waits in it. -/
def roomC3 : Room :=
  { baseRoom with monsters := [mkBeast "m2" "Goblin" 8 8 3] }

/-- Fixture for C3: a full-health player facing an 8-health goblin. -/
def stC3 : St :=
  { baseSt with gs := { baseGs with rooms := [("start", roomC3)] } }

/-- A damage-over-time effects payload. -/
def effPoison : Effects := ⟨some 2, none, none, none⟩

/-- A different damage-over-time payload, for the refresh tests. -/
def effPoisonStrong : Effects := ⟨some 4, none, none, none⟩

/-- Fixture for C5: one active "Poisoned" effect of duration 3. -/
def stC5 : St :=
  { baseSt with gs := { baseGs with
      player := { basePlayer with statuses := [⟨"st1", "Poisoned", 3, some effPoison⟩] } } }

/-- The colliding add without an effects payload (C5 counterexample). -/
def incomingNoEffects : StatusEffect := ⟨"st2", "Poisoned", 5, none⟩

/-- The colliding add with an effects payload (scenario D witness). -/
def incomingStrong : StatusEffect := ⟨"st2", "poisoned", 5, some effPoisonStrong⟩

/-- A humanoid NPC with an empty rapport map (C6 counterexample). -/
def npcC6 : Monster :=
  { mkBeast "n1" "Bob" 10 10 1 with behavior := "neutral", rapport := some [] }

/-- Fixture for C6: the NPC with no rapport record for the player. -/
def stC6 : St :=
  { baseSt with gs := { baseGs with
      rooms := [("start", { baseRoom with monsters := [npcC6] })] } }

/-- A rapport record at level 78. -/
def rec78 : RapportRecord :=
  { entityId := "Hero", level := 78, category := "friendly",
    lastInteraction := 0, trustLevel := 5, fearLevel := 0, respectLevel := 5 }

/-- The NPC of the C6 witness: already holding a record at 78. -/
def npcC6b : Monster :=
  { mkBeast "n1" "Bob" 10 10 1 with
    behavior := "neutral",
    rapport := some [("Hero", rec78)] }

/-- Fixture for the C6 witness. -/
def stC6b : St :=
  { baseSt with gs := { baseGs with
      rooms := [("start", { baseRoom with monsters := [npcC6b] })] } }

/-- A corpse holding one sword of loot, not yet searched. -/
def corpseC8 : DeadBody := {
  id := "b1", originalNPCId := "m9", name := "Bandit",
  description := "", bodyState := {
    condition := BodyCondition.fresh, timeOfDeath := 0, causeOfDeath := "killed by player",
    decompositionLevel := 0, searchable := true, witnessedByNPCs := [] },
  originalLoot := [⟨"it1", "Sword", "weapon", false, 1, ⟨none, some 5⟩⟩],
  originalPossessions := [], searchedBy := [], roomId := "start",
  originalOccupation := "unknown" }

/-- The C8 witness room: it holds the fixture corpse. -/
def roomC8 : Room :=
  { baseRoom with deadBodies := [corpseC8] }

/-- Fixture for C8: the corpse in the room, with the narrator call set to
throw (the local-fallback path). -/
def stC8 : St :=
  { baseSt with
    gs := { baseGs with rooms := [("start", roomC8)] },
    searchQueue := [SearchOut.threw] }

/-- A generator response with no doors at all (violating the required-exit
contract), for the C9 counterexample. -/
def bareGenRoom : Room := {
  id := "gen1", name := "Generated Room", description := "",
  items := [], monsters := [], doors := [], visited := false,
  specialFeatures := [], deadBodies := [] }

/-- Fixture for the C9 counterexample: the generator succeeds but returns
no doors. -/
def stC9 : St := { baseSt with genRoomQueue := [some bareGenRoom] }

/-- The unlinked, unlocked north door of the C9 scenario-B fixture. -/
def doorC9b : Door := ⟨"d1", "north", "", false, none⟩

/-- The C9 scenario-B room: only the unlinked north door. -/
def roomC9b : Room := { baseRoom with doors := [doorC9b] }

/-- Fixture for the C9 scenario-B witness: a north door with no link, a
failing generator, one drawn extra direction. -/
def stC9b : St :=
  { baseSt with
    gs := { baseGs with rooms := [("start", roomC9b)] },
    extraDirsQueue := [["east"]],
    genRoomQueue := [none] }

/-- A humanoid NPC mid-conversation, for the C1 talk counterexample. -/
def npcC1 : Monster :=
  { mkBeast "n2" "Bob" 10 10 1 with
    behavior := "neutral",
    conversationState := some {
      isActive := true, turn := 0, mood := "calm", topics := [],
      lastPlayerMessage := none } }

/-- Fixture for C1: a player with an active 3-turn poison talking to Bob. -/
def exC1 : Exec := {
  st := { baseSt with gs := { baseGs with
    player := { basePlayer with statuses := [⟨"st1", "Poisoned", 3, some effPoison⟩] },
    rooms := [("start", { baseRoom with monsters := [npcC1] })] } },
  statusTicks := 0, bodyTicks := 0 }

/-- The conversation oracle for the C1 talk counterexample. -/
def talkC1 : TalkApi :=
  ⟨none, some ⟨"Hello there", none, none, [], none, none⟩⟩

/-- A no-oracle talk record for non-talk turns. -/
def talkNone : TalkApi := ⟨none, none⟩

/-- The room the C7 witness starts in: it holds the fixture corpse. -/
def roomC7 : Room :=
  { baseRoom with deadBodies := [corpseC8] }

/-- Fixture for the C7 witness: a fresh corpse dead for 81 days. -/
def stC7 : St :=
  { baseSt with
    gs := { baseGs with
      rooms := [("start", roomC7)],
      deadBodiesReg := [("b1", corpseC8)] },
    now := 7000000000 }

/-- Fixture for the C4 witness: a permanent effect and a 1-turn poison. -/
def stC4 : St :=
  { baseSt with gs := { baseGs with
      player := { basePlayer with statuses :=
        [⟨"perm1", "Perm", -1, some effPoison⟩,
         ⟨"po1", "Poisoned", 1, some effPoison⟩] } } }

/-! ## Framing lemmas for the primitive state combinators -/

theorem addEvent_player (t m : String) (s : St) :
    (addEvent t m s).gs.player = s.gs.player := rfl

theorem addEvent_turn (t m : String) (s : St) :
    (addEvent t m s).gs.currentTurn = s.gs.currentTurn := rfl

theorem updPlayer_turn (f : Player → Player) (s : St) :
    (updPlayer f s).gs.currentTurn = s.gs.currentTurn := rfl

theorem updRoom_turn (id : String) (f : Room → Room) (s : St) :
    (updRoom id f s).gs.currentTurn = s.gs.currentTurn := rfl

theorem setRoom_turn (r : Room) (s : St) :
    (setRoom r s).gs.currentTurn = s.gs.currentTurn := rfl

theorem regSet_turn (b : DeadBody) (s : St) :
    (regSet b s).gs.currentTurn = s.gs.currentTurn := rfl

theorem regDel_turn (id : String) (s : St) :
    (regDel id s).gs.currentTurn = s.gs.currentTurn := rfl

theorem pushEmoEvent_turn (ev : EmotionalEvent) (s : St) :
    (pushEmoEvent ev s).gs.currentTurn = s.gs.currentTurn := rfl

theorem popRand_gs (s : St) : (popRand s).2.gs = s.gs := by
  unfold popRand; split <;> rfl

theorem popUuid_gs (s : St) : (popUuid s).2.gs = s.gs := rfl

theorem popGenRoom_gs (s : St) : (popGenRoom s).2.gs = s.gs := by
  unfold popGenRoom; split <;> rfl

theorem popExtraDirs_gs (s : St) : (popExtraDirs s).2.gs = s.gs := by
  unfold popExtraDirs; split <;> rfl

theorem popCraft_gs (s : St) : (popCraft s).2.gs = s.gs := by
  unfold popCraft; split <;> rfl

theorem popSearch_gs (s : St) : (popSearch s).2.gs = s.gs := by
  unfold popSearch; split <;> rfl

theorem popLoot_gs (s : St) : (popLoot s).2.gs = s.gs := by
  unfold popLoot; split <;> rfl

theorem mkFallbackDoors_gs (dirs : List String) (acc : List Door) (s : St) :
    (mkFallbackDoors dirs acc s).2.gs = s.gs := by
  induction dirs generalizing acc s with
  | nil => rfl
  | cons d rest ih => simpa [mkFallbackDoors] using ih _ _

theorem generateNewRoom_gs (d : String) (s : St) :
    (generateNewRoom d s).2.gs = s.gs := by
  simp only [generateNewRoom, popExtraDirs, popGenRoom, popUuid]
  rcases hq : s.extraDirsQueue with _ | ⟨ds, qrest⟩
  all_goals rcases hg : s.genRoomQueue with _ | ⟨g, grest⟩
  all_goals simp only [hq, hg]
  all_goals try cases g
  all_goals simp [mkFallbackDoors_gs]

/-- `foldl` over a turn-preserving per-element action preserves the turn
counter. -/
theorem foldl_preserves_turn {α : Type} (f : α → St → St)
    (h : ∀ x s, (f x s).gs.currentTurn = s.gs.currentTurn)
    (l : List α) (s : St) :
    (l.foldl (fun s x => f x s) s).gs.currentTurn = s.gs.currentTurn := by
  induction l generalizing s with
  | nil => rfl
  | cons x rest ih => rw [List.foldl_cons, ih, h]

/-! ## Claim C10 — experience gain and the single level-up -/

/-- `expNext` is exactly the floor formula of the source's
`Math.floor(100 * Math.pow(1.5, level - 1))`. -/
theorem expNext_eq_floor (n : Nat) : expNext n = ⌊(100 : ℚ) * (3 / 2) ^ n⌋ := by
  unfold expNext
  have h : (100 : ℚ) * (3 / 2) ^ n = ((100 * 3 ^ n : ℕ) : ℚ) / ((2 ^ n : ℕ) : ℚ) := by
    push_cast
    field_simp
  rw [h, Rat.floor_natCast_div_natCast]
  rfl

/-- C10: an experience award adds to the accumulated experience (never
resetting it); when the total reaches the threshold exactly one level-up
happens in the call — the level rises by 1, the threshold becomes
`floor(100 * 1.5 ^ (newLevel - 1))`, max health grows by `20 + 5 *
newLevel` and current health is set to the new maximum — and below the
threshold nothing else changes, even when the award spans several
thresholds at once. -/
theorem c10_gain_experience_levels_once (s : St) (amount : Int) (reason : String) :
    (gainExperience amount reason s).gs.player.experience =
      s.gs.player.experience + amount ∧
    (s.gs.player.experience + amount ≥ s.gs.player.experienceToNext →
      (gainExperience amount reason s).gs.player.level = s.gs.player.level + 1 ∧
      (gainExperience amount reason s).gs.player.experienceToNext =
        expNext s.gs.player.level ∧
      (gainExperience amount reason s).gs.player.experienceToNext =
        ⌊(100 : ℚ) * (3 / 2) ^ s.gs.player.level⌋ ∧
      (gainExperience amount reason s).gs.player.maxHealth =
        s.gs.player.maxHealth + (20 + 5 * ((s.gs.player.level : Int) + 1)) ∧
      (gainExperience amount reason s).gs.player.health =
        (gainExperience amount reason s).gs.player.maxHealth) ∧
    (s.gs.player.experience + amount < s.gs.player.experienceToNext →
      (gainExperience amount reason s).gs.player.level = s.gs.player.level ∧
      (gainExperience amount reason s).gs.player.maxHealth = s.gs.player.maxHealth ∧
      (gainExperience amount reason s).gs.player.health = s.gs.player.health ∧
      (gainExperience amount reason s).gs.player.experienceToNext =
        s.gs.player.experienceToNext) := by
  unfold gainExperience levelUp updPlayer addEvent
  simp only []
  split
  · rename_i hge
    refine ⟨rfl, fun _ => ?_, fun hlt => ?_⟩
    · refine ⟨rfl, ?_, ?_, rfl, rfl⟩
      · simp
      · rw [← expNext_eq_floor]; simp
    · exact absurd (by simpa using hge) (not_le.mpr hlt)
  · rename_i hge
    refine ⟨rfl, fun hle => ?_, fun _ => ⟨rfl, rfl, rfl, rfl⟩⟩
    exact absurd (by simpa using hle) hge

/-- Witness for C10 at a concrete input: a 100-XP award to a fresh player
crosses the level-1 threshold; the theorem's hypotheses hold and give the
level-up facts. -/
theorem c10_witness :
    basePlayer.experience + 100 ≥ basePlayer.experienceToNext ∧
    (gainExperience 100 "quest" baseSt).gs.player.level = basePlayer.level + 1 ∧
    (gainExperience 100 "quest" baseSt).gs.player.experience =
      basePlayer.experience + 100 := by
  have h := c10_gain_experience_levels_once baseSt 100 "quest"
  exact ⟨by decide, (h.2.1 (by decide)).1, h.1⟩

/-! ## Claim C5 — status-effect add with case-insensitive collision -/

theorem listUpd_length {α : Type} (i : Nat) (f : α → α) (l : List α) :
    (listUpd i f l).length = l.length := by
  unfold listUpd
  split
  · exact List.length_set l i _
  · rfl

/-- C5 (amended): an `addStatuses` entry whose name collides
case-insensitively with an active effect updates that effect in place —
duration becomes the maximum of old and new, and the effect parameters are
replaced by the incoming ones exactly when the incoming payload carries
any, the old parameters being kept otherwise — without changing the number
of active effects; a non-colliding entry is appended as new. -/
theorem c5_add_status_collision (s : St) (incoming : StatusEffect) :
    (∀ i, s.gs.player.statuses.findIdx? (fun t => lowEq t.name incoming.name) = some i →
      (addStatusOne incoming s).gs.player.statuses =
        listUpd i (fun e =>
          { e with
            duration := max e.duration incoming.duration,
            effects := (match incoming.effects with
              | some x => some x
              | none => e.effects) }) s.gs.player.statuses ∧
      (addStatusOne incoming s).gs.player.statuses.length =
        s.gs.player.statuses.length) ∧
    (s.gs.player.statuses.findIdx? (fun t => lowEq t.name incoming.name) = none →
      (addStatusOne incoming s).gs.player.statuses =
        s.gs.player.statuses ++ [incoming]) := by
  constructor
  · intro i hi
    unfold addStatusOne
    rw [hi]
    exact ⟨rfl, listUpd_length _ _ _⟩
  · intro hn
    unfold addStatusOne
    rw [hn]
    rfl

/-- Counterexample to C5 as stated: re-applying "Poisoned" without an
effects payload keeps the old parameters — the stored parameters are not
replaced by the incoming payload. -/
theorem c5_counterexample :
    incomingNoEffects.effects = none ∧
    (addStatusOne incomingNoEffects stC5).gs.player.statuses =
      [⟨"st1", "Poisoned", 5, some effPoison⟩] ∧
    some effPoison ≠ incomingNoEffects.effects := by
  refine ⟨rfl, ?_, by decide⟩
  decide

/-- Witness for C5 at a concrete input (end-to-end scenario D): "Poisoned"
at duration 3 refreshed by "poisoned" at duration 5 leaves exactly one
active effect, with duration 5 and the incoming parameters. -/
theorem c5_witness :
    stC5.gs.player.statuses.findIdx? (fun t => lowEq t.name incomingStrong.name) =
      some 0 ∧
    (addStatusOne incomingStrong stC5).gs.player.statuses =
      [⟨"st1", "Poisoned", 5, some effPoisonStrong⟩] := by
  have h := (c5_add_status_collision stC5 incomingStrong).1 0 (by decide)
  exact ⟨by decide, h.1.trans (by decide)⟩

/-! ## Claim C6 — rapport update, clamping, thresholds, lazy creation -/

theorem lookup_mapSet_self {α : Type} (k : String) (v : α) (m : List (String × α)) :
    (mapSet k v m).lookup k = some v := by
  induction m with
  | nil => simp [mapSet, List.lookup]
  | cons kv rest ih =>
    cases kv with
    | mk k' v' =>
      by_cases h : k = k'
      · subst h; simp [mapSet, List.lookup]
      · have hb : (k == k') = false := beq_eq_false_iff_ne.mpr h
        simp [mapSet, hb, List.lookup, ih]

theorem lookup_mapUpdKey (id : String) (f : Room → Room) (l : List (String × Room)) :
    (mapUpdKey id f l).lookup id = (l.lookup id).map f := by
  induction l with
  | nil => rfl
  | cons kv rest ih =>
    cases kv with
    | mk k v =>
      unfold mapUpdKey
      by_cases h : k = id
      · subst h
        rw [if_pos (beq_self_eq_true k)]
        simp [List.lookup]
      · have hb : (k == id) = false := beq_eq_false_iff_ne.mpr h
        have hb' : (id == k) = false := beq_eq_false_iff_ne.mpr (Ne.symm h)
        rw [if_neg (by simp [hb])]
        simp [List.lookup, hb', ih]

theorem updRoom_player (id : String) (f : Room → Room) (s : St) :
    (updRoom id f s).gs.player = s.gs.player := rfl

theorem getRoom_updRoom (id : String) (f : Room → Room) (s : St) :
    getRoom (updRoom id f s).gs id = (getRoom s.gs id).map f :=
  lookup_mapUpdKey id f s.gs.rooms

theorem find?_map_pres {α : Type} (g : α → α) (p : α → Bool)
    (hp : ∀ m, p (g m) = p m) (l : List α) :
    (l.map g).find? p = (l.find? p).map g := by
  induction l with
  | nil => rfl
  | cons m rest ih =>
    simp only [List.map_cons, List.find?]
    rw [hp m]
    cases h : p m <;> simp [h, ih]

/-- `find?` by NPC id is stable under the rapport-replacing map
`updatePlayerRapport` performs, and returns the mapped found monster. -/
theorem find_after_map_set (npcId : String)
    (rp : Option (List (String × RapportRecord))) (l : List Monster) (npc : Monster)
    (hfind : l.find? (fun m => m.id == npcId) = some npc) :
    (l.map (fun m => if m.id == npcId then { m with rapport := rp } else m)).find?
      (fun m => m.id == npcId) = some { npc with rapport := rp } := by
  induction l with
  | nil => cases hfind
  | cons m rest ih =>
    by_cases h : (m.id == npcId) = true
    · rw [List.find?_cons_of_pos rest h] at hfind
      injection hfind with hnpc
      subst hnpc
      rw [List.map_cons, if_pos h]
      exact List.find?_cons_of_pos _ h
    · rw [@List.find?_cons_of_neg _ (fun m => m.id == npcId) m rest h] at hfind
      rw [List.map_cons, if_neg h]
      rw [@List.find?_cons_of_neg _ (fun m => m.id == npcId) m _ h]
      exact ih hfind

/-- Reading the player's rapport record back after `updatePlayerRapport`
stores `pr'`: both accessors see exactly the stored record. -/
theorem rapport_read_after_set (s : St) (npcId : String)
    (rm : List (String × RapportRecord)) (pr' : RapportRecord)
    (room : Room) (npc : Monster)
    (hroom : getRoom s.gs s.gs.player.currentRoomId = some room)
    (hfind : room.monsters.find? (fun m => m.id == npcId) = some npc) :
    getPlayerRapport npcId
      (updRoom s.gs.player.currentRoomId (fun r =>
        { r with monsters := r.monsters.map (fun m =>
            if m.id == npcId then
              { m with rapport := some (mapSet s.gs.player.name pr' rm) }
            else m) }) s) = pr'.level ∧
    getPlayerRapportCategory npcId
      (updRoom s.gs.player.currentRoomId (fun r =>
        { r with monsters := r.monsters.map (fun m =>
            if m.id == npcId then
              { m with rapport := some (mapSet s.gs.player.name pr' rm) }
            else m) }) s) = some pr'.category := by
  constructor
  · unfold getPlayerRapport
    rw [updRoom_player, getRoom_updRoom, hroom]
    simp only [Option.map_some']
    rw [find_after_map_set npcId _ room.monsters npc hfind]
    show (match List.lookup s.gs.player.name (mapSet s.gs.player.name pr' rm) with
          | none => 0
          | some pr => pr.level) = pr'.level
    rw [lookup_mapSet_self]
  · unfold getPlayerRapportCategory
    rw [updRoom_player, getRoom_updRoom, hroom]
    simp only [Option.map_some']
    rw [find_after_map_set npcId _ room.monsters npc hfind]
    show (List.lookup s.gs.player.name (mapSet s.gs.player.name pr' rm)).map
        RapportRecord.category = some pr'.category
    rw [lookup_mapSet_self]
    rfl

/-- C6 (amended): for a pair that already has a rapport record, an update
adds the delta with the result clamped to [-100, 100] and the stored
category recomputed by the exact fixed thresholds (80 maps to devoted, 79
to close-friend, and so on down to mortal-enemy below -79); for any
unknown (npc, actor) pair — no record, no rapport map, or no such NPC —
the update is a complete no-op that creates nothing, and the read accessor
answers 0.  (Records are created elsewhere: at conversation start with
level 0, and at surrender with level -10.) -/
theorem c6_rapport_update (s : St) (npcId : String) (change : Int) :
    (∀ room npc rm pr,
      getRoom s.gs s.gs.player.currentRoomId = some room →
      room.monsters.find? (fun m => m.id == npcId) = some npc →
      npc.rapport = some rm →
      rm.lookup s.gs.player.name = some pr →
      getPlayerRapport npcId (updatePlayerRapport npcId change s) =
        max (-100) (min 100 (pr.level + change)) ∧
      -100 ≤ max (-100) (min 100 (pr.level + change)) ∧
      max (-100) (min 100 (pr.level + change)) ≤ 100 ∧
      getPlayerRapportCategory npcId (updatePlayerRapport npcId change s) =
        some (rapportCategoryOf (max (-100) (min 100 (pr.level + change))))) ∧
    (∀ room npc rm,
      getRoom s.gs s.gs.player.currentRoomId = some room →
      room.monsters.find? (fun m => m.id == npcId) = some npc →
      npc.rapport = some rm →
      rm.lookup s.gs.player.name = none →
      updatePlayerRapport npcId change s = s ∧ getPlayerRapport npcId s = 0) ∧
    (∀ room npc,
      getRoom s.gs s.gs.player.currentRoomId = some room →
      room.monsters.find? (fun m => m.id == npcId) = some npc →
      npc.rapport = none →
      updatePlayerRapport npcId change s = s ∧ getPlayerRapport npcId s = 0) ∧
    (∀ room,
      getRoom s.gs s.gs.player.currentRoomId = some room →
      room.monsters.find? (fun m => m.id == npcId) = none →
      updatePlayerRapport npcId change s = s ∧ getPlayerRapport npcId s = 0) ∧
    (∀ l : Int, 80 ≤ l → rapportCategoryOf l = "devoted") ∧
    (∀ l : Int, 40 ≤ l → l < 80 → rapportCategoryOf l = "close_friend") ∧
    (∀ l : Int, 20 ≤ l → l < 40 → rapportCategoryOf l = "ally") ∧
    (∀ l : Int, 5 ≤ l → l < 20 → rapportCategoryOf l = "friendly") ∧
    (∀ l : Int, -4 ≤ l → l < 5 → rapportCategoryOf l = "neutral") ∧
    (∀ l : Int, -19 ≤ l → l < -4 → rapportCategoryOf l = "unfriendly") ∧
    (∀ l : Int, -39 ≤ l → l < -19 → rapportCategoryOf l = "hostile") ∧
    (∀ l : Int, -79 ≤ l → l < -39 → rapportCategoryOf l = "enemy") ∧
    (∀ l : Int, l < -79 → rapportCategoryOf l = "mortal_enemy") := by
  refine ⟨?_, ?_, ?_, ?_, ?_, ?_, ?_, ?_, ?_, ?_, ?_, ?_, ?_⟩
  · intro room npc rm pr hroom hfind hrap hlook
    have hread := rapport_read_after_set s npcId rm
      { pr with
        level := max (-100) (min 100 (pr.level + change)),
        lastInteraction := s.now,
        category := rapportCategoryOf (max (-100) (min 100 (pr.level + change))) }
      room npc hroom hfind
    unfold updatePlayerRapport
    simp only [hroom, hfind, hrap, hlook]
    exact ⟨hread.1, le_max_left _ _,
      max_le (by norm_num) (min_le_left _ _), hread.2⟩
  · intro room npc rm hroom hfind hrap hlook
    constructor
    · unfold updatePlayerRapport
      simp only [hroom, hfind, hrap, hlook]
    · unfold getPlayerRapport
      simp only [hroom, hfind, hrap, hlook]
  · intro room npc hroom hfind hrap
    constructor
    · unfold updatePlayerRapport
      simp only [hroom, hfind, hrap]
    · unfold getPlayerRapport
      simp only [hroom, hfind, hrap]
  · intro room hroom hfind
    constructor
    · unfold updatePlayerRapport
      simp only [hroom, hfind]
    · unfold getPlayerRapport
      simp only [hroom, hfind]
  all_goals intro l
  all_goals intros
  all_goals unfold rapportCategoryOf
  all_goals split_ifs <;> first | rfl | omega

/-- Counterexample to C6 as stated: a non-zero update for an NPC whose
rapport map has no record for the player changes nothing at all — no
rapport record is lazily created on the first non-zero update. -/
theorem c6_counterexample :
    (5 : Int) ≠ 0 ∧
    npcC6.rapport = some [] ∧
    updatePlayerRapport "n1" 5 stC6 = stC6 ∧
    getPlayerRapport "n1" (updatePlayerRapport "n1" 5 stC6) = 0 := by
  refine ⟨by decide, rfl, ?_, ?_⟩ <;> decide

/-- Witness for C6 at a concrete input: an existing record at level 78
updated by +5 lands on 83, clamped inside [-100, 100] and categorised as
devoted. -/
theorem c6_witness :
    getPlayerRapport "n1" (updatePlayerRapport "n1" 5 stC6b) = 83 ∧
    getPlayerRapportCategory "n1" (updatePlayerRapport "n1" 5 stC6b) =
      some "devoted" := by
  have h := (c6_rapport_update stC6b "n1" 5).1
    { baseRoom with monsters := [npcC6b] } npcC6b [("Hero", rec78)] rec78
    (by decide) (by decide) (by decide) (by decide)
  exact ⟨h.1.trans (by decide), h.2.2.2.trans (by decide)⟩

/-! ## Claim C4 — status-effect tick semantics -/

theorem tickStatusRule_id (t st : StatusEffect) (h : tickStatusRule t = some st) :
    st.id = t.id := by
  unfold tickStatusRule at h
  split at h
  · cases h; rfl
  · split at h
    · cases h
    · cases h; rfl

theorem decAndFilter_eq (l : List StatusEffect) :
    decAndFilter l = (l.filterMap tickStatusRule, expiryEvents l) := by
  induction l with
  | nil => rfl
  | cons st rest ih =>
    simp only [decAndFilter, ih]
    by_cases h1 : st.duration = -1
    · have hne1 : (st.duration == 1) = false := by simp; omega
      simp [tickStatusRule, expiryEvents, h1, List.filterMap_cons, hne1]
    · by_cases h2 : st.duration = 1
      · simp [tickStatusRule, expiryEvents, h1, h2, List.filterMap_cons]
      · have hne0 : ¬(st.duration - 1 = 0) := by omega
        have hne1 : (st.duration == 1) = false := by simp; omega
        simp [tickStatusRule, expiryEvents, h1, h2, hne0, hne1, List.filterMap_cons]

theorem pse_statuses (st : StatusEffect) (s : St) :
    (processStatusEffect st s).gs.player.statuses = s.gs.player.statuses := by
  unfold processStatusEffect updPlayer addEvent
  cases hd : st.effects >>= Effects.damagePerTurn <;>
    cases hh : st.effects >>= Effects.healingPerTurn <;>
    simp only [hd, hh] <;> split_ifs <;> rfl

theorem pse_maxHealth (st : StatusEffect) (s : St) :
    (processStatusEffect st s).gs.player.maxHealth = s.gs.player.maxHealth := by
  unfold processStatusEffect updPlayer addEvent
  cases hd : st.effects >>= Effects.damagePerTurn <;>
    cases hh : st.effects >>= Effects.healingPerTurn <;>
    simp only [hd, hh] <;> split_ifs <;> rfl

theorem pse_health (st : StatusEffect) (s : St) :
    (processStatusEffect st s).gs.player.health =
      effectHealthStep s.gs.player.maxHealth s.gs.player.health st := by
  unfold processStatusEffect effectHealthStep updPlayer addEvent
  cases hd : st.effects >>= Effects.damagePerTurn <;>
    cases hh : st.effects >>= Effects.healingPerTurn <;>
    simp only [hd, hh] <;> split_ifs <;> rfl

theorem pse_log_mono (st : StatusEffect) (s : St) (ev : GameEvent)
    (h : ev ∈ s.gs.gameLog) : ev ∈ (processStatusEffect st s).gs.gameLog := by
  unfold processStatusEffect updPlayer addEvent
  cases hd : st.effects >>= Effects.damagePerTurn <;>
    cases hh : st.effects >>= Effects.healingPerTurn <;>
    simp only [hd, hh] <;> first | (split_ifs <;> simp_all) | simp_all

theorem fold_pse_statuses (l : List StatusEffect) (s : St) :
    (l.foldl (fun s st => processStatusEffect st s) s).gs.player.statuses =
      s.gs.player.statuses := by
  induction l generalizing s with
  | nil => rfl
  | cons st rest ih => rw [List.foldl_cons, ih, pse_statuses]

theorem fold_pse_maxHealth (l : List StatusEffect) (s : St) :
    (l.foldl (fun s st => processStatusEffect st s) s).gs.player.maxHealth =
      s.gs.player.maxHealth := by
  induction l generalizing s with
  | nil => rfl
  | cons st rest ih => rw [List.foldl_cons, ih, pse_maxHealth]

theorem fold_pse_health (l : List StatusEffect) (s : St) :
    (l.foldl (fun s st => processStatusEffect st s) s).gs.player.health =
      l.foldl (effectHealthStep s.gs.player.maxHealth) s.gs.player.health := by
  induction l generalizing s with
  | nil => rfl
  | cons st rest ih =>
    rw [List.foldl_cons, List.foldl_cons, ih, pse_health, pse_maxHealth]

theorem fold_pse_log_mono (l : List StatusEffect) (s : St) (ev : GameEvent)
    (h : ev ∈ s.gs.gameLog) :
    ev ∈ (l.foldl (fun s st => processStatusEffect st s) s).gs.gameLog := by
  induction l generalizing s with
  | nil => exact h
  | cons st rest ih => exact ih _ (pse_log_mono st s ev h)

/-- C4: one status-effect tick (i) leaves every effect bearing the
permanent sentinel `-1` in place, untouched; (ii) removes exactly the
effects whose duration reaches 0 after the decrement (so the effects of
duration 1, which still apply their numbers this very tick), logging a
worn-off entry for each; (iii) applies the per-turn numeric effects of the
whole pre-decrement list, in list order, to the player's health — damage
floored at 0, healing capped at max health — before any duration changes;
and (iv) introduces no new effect entries, so a removed effect never
contributes to any later tick. -/
theorem c4_status_tick (s : St) :
    (updateStatusEffectsSt s).gs.player.statuses =
      s.gs.player.statuses.filterMap tickStatusRule ∧
    (updateStatusEffectsSt s).gs.player.health =
      s.gs.player.statuses.foldl
        (effectHealthStep s.gs.player.maxHealth) s.gs.player.health ∧
    (∀ st ∈ s.gs.player.statuses, st.duration = -1 →
      tickStatusRule st = some st ∧
      st ∈ (updateStatusEffectsSt s).gs.player.statuses) ∧
    (∀ st ∈ s.gs.player.statuses, st.duration = 1 →
      tickStatusRule st = none ∧
      (⟨"system", st.name ++ " has worn off."⟩ : GameEvent) ∈
        (updateStatusEffectsSt s).gs.gameLog) ∧
    (∀ x : String, (∀ st ∈ s.gs.player.statuses, st.id ≠ x) →
      ∀ st ∈ (updateStatusEffectsSt s).gs.player.statuses, st.id ≠ x) := by
  have hstat : (updateStatusEffectsSt s).gs.player.statuses =
      s.gs.player.statuses.filterMap tickStatusRule := by
    simp only [updateStatusEffectsSt]
    rw [fold_pse_statuses, decAndFilter_eq]
    rfl
  have hlog : (updateStatusEffectsSt s).gs.gameLog =
      (s.gs.player.statuses.foldl (fun s st => processStatusEffect st s) s).gs.gameLog ++
        expiryEvents s.gs.player.statuses := by
    simp only [updateStatusEffectsSt]
    rw [fold_pse_statuses, decAndFilter_eq]
    rfl
  refine ⟨hstat, ?_, ?_, ?_, ?_⟩
  · simp only [updateStatusEffectsSt]
    rw [fold_pse_statuses, decAndFilter_eq]
    exact fold_pse_health _ _
  · intro st hmem hdur
    have hrule : tickStatusRule st = some st := by
      unfold tickStatusRule
      rw [if_pos hdur]
    exact ⟨hrule, by
      rw [hstat]
      exact List.mem_filterMap.mpr ⟨st, hmem, hrule⟩⟩
  · intro st hmem hdur
    have hrule : tickStatusRule st = none := by
      unfold tickStatusRule
      rw [if_neg (by omega), if_pos hdur]
    refine ⟨hrule, ?_⟩
    rw [hlog]
    apply List.mem_append_right
    unfold expiryEvents
    exact List.mem_map.mpr ⟨st, List.mem_filter.mpr ⟨hmem, by simp [hdur]⟩, rfl⟩
  · intro x hx st hmem
    rw [hstat] at hmem
    obtain ⟨t, ht, hrule⟩ := List.mem_filterMap.mp hmem
    rw [tickStatusRule_id t st hrule]
    exact hx t ht

/-- Witness for C4 at a concrete input: with a permanent effect and a
1-turn poison active, the tick keeps the permanent effect at duration -1,
applies both damage numbers (100 - 2 - 2 = 96) and removes the poison with
a worn-off log entry. -/
theorem c4_witness :
    (⟨"perm1", "Perm", -1, some effPoison⟩ : StatusEffect) ∈
      (updateStatusEffectsSt stC4).gs.player.statuses ∧
    (⟨"system", "Poisoned has worn off."⟩ : GameEvent) ∈
      (updateStatusEffectsSt stC4).gs.gameLog ∧
    (updateStatusEffectsSt stC4).gs.player.health = 96 := by
  have h := c4_status_tick stC4
  refine ⟨(h.2.2.1 ⟨"perm1", "Perm", -1, some effPoison⟩ (by decide) rfl).2,
    (h.2.2.2.1 ⟨"po1", "Poisoned", 1, some effPoison⟩ (by decide) rfl).2, ?_⟩
  exact h.2.1.trans (by decide)

/-! ## Claim C7 — corpse decomposition -/

theorem decompLevel_low (old ms : Nat) (h : ¬7200000 < ms) :
    decompLevel old ms = old := by
  unfold decompLevel
  split_ifs <;> first | rfl | omega

theorem decompLevel_high (old ms : Nat) (h : 7200000 < ms) :
    decompLevel old ms = bandLevel ms := by
  unfold decompLevel bandLevel
  split_ifs <;> rfl

theorem bandLevel_mono (ms1 ms2 : Nat) (hle : ms1 ≤ ms2) (h1 : 7200000 < ms1) :
    bandLevel ms1 ≤ bandLevel ms2 := by
  unfold bandLevel
  split_ifs <;> omega

theorem decomposeBody_level (now : Nat) (b : DeadBody) :
    (decomposeBody now b).bodyState.decompositionLevel =
      decompLevel b.bodyState.decompositionLevel (now - b.bodyState.timeOfDeath) := by
  simp only [decomposeBody]
  split
  · rfl
  · next h =>
      push_neg at h
      exact h.2.symm

theorem decomposeBody_tod (now : Nat) (b : DeadBody) :
    (decomposeBody now b).bodyState.timeOfDeath = b.bodyState.timeOfDeath := by
  simp only [decomposeBody]
  split <;> rfl

theorem decomposeBody_searchable (now : Nat) (b : DeadBody)
    (hb : b.bodyState.decompositionLevel > 7 → b.bodyState.searchable = false) :
    (decomposeBody now b).bodyState.decompositionLevel > 7 →
      (decomposeBody now b).bodyState.searchable = false := by
  simp only [decomposeBody]
  split
  · exact fun hgt => if_pos hgt
  · exact hb

theorem foldl_decompLevel_le_band (times : List Nat) (lvl ms : Nat)
    (hms : ∀ t ∈ times, t ≤ ms) (hband : 7200000 < ms) (hlvl : lvl ≤ bandLevel ms) :
    times.foldl decompLevel lvl ≤ bandLevel ms := by
  induction times generalizing lvl with
  | nil => exact hlvl
  | cons t ts ih =>
    rw [List.foldl_cons]
    refine ih _ (fun x hx => hms x (List.mem_cons_of_mem t hx)) ?_
    by_cases ht : 7200000 < t
    · rw [decompLevel_high lvl t ht]
      exact bandLevel_mono t ms (hms t (List.mem_cons_self t ts)) ht
    · rw [decompLevel_low lvl t ht]
      exact hlvl

theorem levelAfterTicks_mono (times : List Nat) (ms : Nat)
    (hms : ∀ t ∈ times, t ≤ ms) :
    levelAfterTicks times ≤ levelAfterTicks (times ++ [ms]) := by
  unfold levelAfterTicks
  rw [List.foldl_append]
  simp only [List.foldl_cons, List.foldl_nil]
  by_cases h : 7200000 < ms
  · rw [decompLevel_high _ ms h]
    exact foldl_decompLevel_le_band times 0 ms hms h (Nat.zero_le _)
  · rw [decompLevel_low _ ms h]

theorem decomposeFold_searchable (times : List Nat) (b : DeadBody)
    (hb : b.bodyState.decompositionLevel > 7 → b.bodyState.searchable = false) :
    (decomposeFold times b).bodyState.decompositionLevel > 7 →
      (decomposeFold times b).bodyState.searchable = false := by
  induction times generalizing b with
  | nil => exact hb
  | cons t ts ih =>
    unfold decomposeFold at *
    rw [List.foldl_cons]
    exact ih _ (decomposeBody_searchable t b hb)

theorem removeFold_rooms (l : List DeadBody) (s : St) :
    (l.foldl removeBodyStep s).gs.rooms = s.gs.rooms := by
  induction l generalizing s with
  | nil => rfl
  | cons b rest ih => rw [List.foldl_cons, ih]; rfl

theorem lookup_mapDel_self {α : Type} (k : String) (m : List (String × α)) :
    (mapDel k m).lookup k = none := by
  induction m with
  | nil => rfl
  | cons kv rest ih =>
    cases kv with
    | mk k' v' =>
      by_cases h : k' = k
      · subst h; simpa [mapDel] using ih
      · have hb : (k' != k) = true := by simp [h]
        have hb' : (k == k') = false := beq_eq_false_iff_ne.mpr (Ne.symm h)
        simp only [mapDel, List.filter_cons, hb, if_true]
        simpa [List.lookup, hb', mapDel] using ih

theorem lookup_mapDel_none {α : Type} (k x : String) (m : List (String × α))
    (h : m.lookup x = none) : (mapDel k m).lookup x = none := by
  induction m with
  | nil => rfl
  | cons kv rest ih =>
    cases kv with
    | mk k' v' =>
      rw [List.lookup] at h
      cases hx : (x == k') with
      | true => rw [hx] at h; cases h
      | false =>
        rw [hx] at h
        by_cases hk : k' != k
        · simp only [mapDel, List.filter_cons, hk, if_true]
          simpa [List.lookup, hx, mapDel] using ih h
        · simp only [mapDel, List.filter_cons, hk, if_false]
          simpa [mapDel] using ih h

theorem removeFold_reg_pres (l : List DeadBody) (s : St) (x : String)
    (h : s.gs.deadBodiesReg.lookup x = none) :
    (l.foldl removeBodyStep s).gs.deadBodiesReg.lookup x = none := by
  induction l generalizing s with
  | nil => exact h
  | cons b rest ih =>
    rw [List.foldl_cons]
    exact ih _ (lookup_mapDel_none b.id x _ h)

theorem removeFold_reg_none (l : List DeadBody) (s : St) (b : DeadBody)
    (hmem : b ∈ l) :
    (l.foldl removeBodyStep s).gs.deadBodiesReg.lookup b.id = none := by
  induction l generalizing s with
  | nil => cases hmem
  | cons c rest ih =>
    rw [List.foldl_cons]
    rcases List.mem_cons.mp hmem with h | h
    · subst h
      exact removeFold_reg_pres rest _ b.id (lookup_mapDel_self b.id _)
    · exact ih _ h

theorem removeFold_log_mono (l : List DeadBody) (s : St) (ev : GameEvent)
    (h : ev ∈ s.gs.gameLog) : ev ∈ (l.foldl removeBodyStep s).gs.gameLog := by
  induction l generalizing s with
  | nil => exact h
  | cons b rest ih =>
    rw [List.foldl_cons]
    exact ih _ (by simp [removeBodyStep, regDel, addEvent, h])

theorem removeFold_event (l : List DeadBody) (s : St) (b : DeadBody) (hmem : b ∈ l) :
    removalEvent b ∈ (l.foldl removeBodyStep s).gs.gameLog := by
  induction l generalizing s with
  | nil => cases hmem
  | cons c rest ih =>
    rw [List.foldl_cons]
    rcases List.mem_cons.mp hmem with h | h
    · subst h
      exact removeFold_log_mono rest _ _ (by simp [removeBodyStep, regDel, addEvent, removalEvent])
    · exact ih _ h

theorem removeFold_getRoom (l : List DeadBody) (s : St) (id : String) :
    getRoom (l.foldl removeBodyStep s).gs id = getRoom s.gs id := by
  unfold getRoom
  rw [removeFold_rooms]

/-- C7: corpse decomposition.  Along any tick sequence whose elapsed times
stay below a final elapsed time, the decomposition level is monotonically
non-decreasing into the final tick; a corpse whose level exceeds 7 is
unsearchable, and this is preserved by any tick sequence; and after
`updateBodyDecomposition` runs, every body left in the player's room has
level below 10, while every body aged to level 10 is gone from the global
registry with its removal event in the game log. -/
theorem c7_corpse_decomposition (times : List Nat) (ms : Nat) (b : DeadBody)
    (s : St) (room : Room)
    (hms : ∀ t ∈ times, t ≤ ms)
    (hsb : b.bodyState.decompositionLevel > 7 → b.bodyState.searchable = false)
    (hroom : getRoom s.gs s.gs.player.currentRoomId = some room)
    (hne : room.deadBodies.isEmpty = false) :
    levelAfterTicks times ≤ levelAfterTicks (times ++ [ms])
    ∧ ((decomposeFold times b).bodyState.decompositionLevel > 7 →
        (decomposeFold times b).bodyState.searchable = false)
    ∧ (∀ room', getRoom (updateBodyDecomposition s).gs s.gs.player.currentRoomId =
          some room' →
        ∀ b' ∈ room'.deadBodies, b'.bodyState.decompositionLevel < 10)
    ∧ (∀ b' ∈ room.deadBodies,
        (decomposeBody s.now b').bodyState.decompositionLevel ≥ 10 →
        ((updateBodyDecomposition s).gs.deadBodiesReg.lookup
            (decomposeBody s.now b').id = none
          ∧ removalEvent (decomposeBody s.now b') ∈
              (updateBodyDecomposition s).gs.gameLog)) := by
  refine ⟨levelAfterTicks_mono times ms hms,
          decomposeFold_searchable times b hsb, ?_, ?_⟩
  · intro room' hroom' b' hb'
    rw [updateBodyDecomposition, hroom] at hroom'
    simp only [hne, Bool.false_eq_true, if_false] at hroom'
    rw [removeFold_getRoom, getRoom_updRoom, hroom] at hroom'
    simp only [Option.map_some'] at hroom'
    have hr := Option.some.inj hroom'
    rw [← hr] at hb'
    have := (List.mem_filter.mp hb').2
    exact of_decide_eq_true this
  · intro b' hb' h10
    have hmem : decomposeBody s.now b' ∈
        room.deadBodies.map (decomposeBody s.now) :=
      List.mem_map_of_mem _ hb'
    have hrem : decomposeBody s.now b' ∈
        (room.deadBodies.map (decomposeBody s.now)).filter
          (fun bb => bb.bodyState.decompositionLevel ≥ 10) :=
      List.mem_filter.mpr ⟨hmem, decide_eq_true h10⟩
    rw [updateBodyDecomposition, hroom]
    simp only [hne, Bool.false_eq_true, if_false]
    exact ⟨removeFold_reg_none _ _ _ hrem, removeFold_event _ _ _ hrem⟩

/-- C7 witness: the fixture corpse is dead for 81 days; the engine ages it
to level 10 and purges it from the room, the registry and marks the log. -/
theorem c7_witness :
    ((∀ t ∈ [100000000, 200000000], t ≤ 700000000)
      ∧ (corpseC8.bodyState.decompositionLevel > 7 →
          corpseC8.bodyState.searchable = false)
      ∧ getRoom stC7.gs stC7.gs.player.currentRoomId = some roomC7
      ∧ roomC7.deadBodies.isEmpty = false)
    ∧ (levelAfterTicks [100000000, 200000000] ≤
        levelAfterTicks ([100000000, 200000000] ++ [700000000])
      ∧ ((decomposeFold [100000000, 200000000] corpseC8).bodyState.decompositionLevel > 7 →
          (decomposeFold [100000000, 200000000] corpseC8).bodyState.searchable = false)
      ∧ (∀ room', getRoom (updateBodyDecomposition stC7).gs
            stC7.gs.player.currentRoomId = some room' →
          ∀ b' ∈ room'.deadBodies, b'.bodyState.decompositionLevel < 10)
      ∧ (∀ b' ∈ roomC7.deadBodies,
          (decomposeBody stC7.now b').bodyState.decompositionLevel ≥ 10 →
          ((updateBodyDecomposition stC7).gs.deadBodiesReg.lookup
              (decomposeBody stC7.now b').id = none
            ∧ removalEvent (decomposeBody stC7.now b') ∈
                (updateBodyDecomposition stC7).gs.gameLog))) :=
  ⟨⟨by decide, by decide, rfl, rfl⟩,
   c7_corpse_decomposition [100000000, 200000000] 700000000 corpseC8 stC7 roomC7
     (by decide) (by decide) rfl rfl⟩

/-! ## Claim C3 — defeat resolution in `handleAttack` -/

theorem getRoom_addEvent (t m : String) (s : St) (id : String) :
    getRoom (addEvent t m s).gs id = getRoom s.gs id := rfl

theorem getRoom_regSet (b : DeadBody) (s : St) (id : String) :
    getRoom (regSet b s).gs id = getRoom s.gs id := rfl

theorem getRoom_pushEmoEvent (ev : EmotionalEvent) (s : St) (id : String) :
    getRoom (pushEmoEvent ev s).gs id = getRoom s.gs id := rfl

theorem getRoom_gainExperience (a : Int) (r : String) (s : St) (id : String) :
    getRoom (gainExperience a r s).gs id = getRoom s.gs id := by
  unfold gainExperience levelUp updPlayer addEvent getRoom
  simp only []
  split <;> rfl

theorem reg_gainExperience (a : Int) (r : String) (s : St) :
    (gainExperience a r s).gs.deadBodiesReg = s.gs.deadBodiesReg := by
  unfold gainExperience levelUp updPlayer addEvent
  simp only []
  split <;> rfl

theorem reg_pushEmoEvent (ev : EmotionalEvent) (s : St) :
    (pushEmoEvent ev s).gs.deadBodiesReg = s.gs.deadBodiesReg := rfl

theorem pushEmoEvent_player (ev : EmotionalEvent) (s : St) :
    (pushEmoEvent ev s).gs.player = s.gs.player := rfl

theorem gainExperience_exp (a : Int) (r : String) (s : St) :
    (gainExperience a r s).gs.player.experience = s.gs.player.experience + a := by
  unfold gainExperience levelUp updPlayer addEvent
  simp only []
  split <;> rfl

theorem eraseIdx_set {α : Type} (l : List α) (i : Nat) (x : α) :
    (l.set i x).eraseIdx i = l.eraseIdx i := by
  induction l generalizing i with
  | nil => rfl
  | cons a rest ih =>
    cases i with
    | zero => rfl
    | succ n => simp [List.set, List.eraseIdx, ih]

theorem eraseIdx_listUpd {α : Type} (i : Nat) (f : α → α) (l : List α) :
    (listUpd i f l).eraseIdx i = l.eraseIdx i := by
  unfold listUpd
  cases hg : l.get? i with
  | none => rfl
  | some a => exact eraseIdx_set l i (f a)

/-- What `createPersistentBody` does when the room exists: it appends a
fresh (level 0, searchable) corpse to the room, registers it globally, and
leaves the player untouched. -/
theorem createPersistentBody_spec (m : Monster) (roomId cause : String) (s : St)
    (room : Room) (hroom : getRoom s.gs roomId = some room) :
    ∃ body : DeadBody,
      getRoom (createPersistentBody m roomId cause s).gs roomId =
        some { room with deadBodies := room.deadBodies ++ [body] }
      ∧ body.bodyState.decompositionLevel = 0
      ∧ body.bodyState.searchable = true
      ∧ (createPersistentBody m roomId cause s).gs.deadBodiesReg.lookup body.id
          = some body
      ∧ (createPersistentBody m roomId cause s).gs.player = s.gs.player := by
  rcases hp : popLoot s with ⟨items, s1⟩
  rcases hu : popUuid s1 with ⟨bodyId, s2⟩
  have hs1 : s1.gs = s.gs := by
    rw [show s1 = (popLoot s).2 from by rw [hp], popLoot_gs]
  have hs2 : s2.gs = s.gs := by
    rw [show s2 = (popUuid s1).2 from by rw [hu], popUuid_gs, hs1]
  unfold createPersistentBody
  rw [hroom]
  simp only [hp, hu]
  refine ⟨?w, ?g1, ?g2, ?g3, ?g4, ?g5⟩
  case g1 =>
    rw [getRoom_addEvent, getRoom_regSet, getRoom_updRoom, hs2, hroom]
    exact rfl
  case g2 => rfl
  case g3 => rfl
  case g4 => exact lookup_mapSet_self _ _ _
  case g5 =>
    show s2.gs.player = s.gs.player
    rw [hs2]

/-- The tail of the defeated branch of `handleAttack`: persistent body,
experience grant and emotional broadcast. -/
theorem defeatTail_spec (roomId cause msg : String) (m' : Monster) (xp : Int)
    (ev : EmotionalEvent) (sPre : St) (room2 : Room)
    (hroom2 : getRoom sPre.gs roomId = some room2) :
    ∃ body : DeadBody,
      getRoom (pushEmoEvent ev (gainExperience xp msg
          (createPersistentBody m' roomId cause sPre))).gs roomId =
        some { room2 with deadBodies := room2.deadBodies ++ [body] }
      ∧ body.bodyState.decompositionLevel = 0
      ∧ body.bodyState.searchable = true
      ∧ (pushEmoEvent ev (gainExperience xp msg
          (createPersistentBody m' roomId cause sPre))).gs.deadBodiesReg.lookup
            body.id = some body
      ∧ (pushEmoEvent ev (gainExperience xp msg
          (createPersistentBody m' roomId cause sPre))).gs.player.experience
          = sPre.gs.player.experience + xp := by
  obtain ⟨body, hgr, h0, hsch, hreg, hpl⟩ :=
    createPersistentBody_spec m' roomId cause sPre room2 hroom2
  refine ⟨body, ?_, h0, hsch, ?_, ?_⟩
  · rw [getRoom_pushEmoEvent, getRoom_gainExperience]
    exact hgr
  · rw [reg_pushEmoEvent, reg_gainExperience]
    exact hreg
  · rw [pushEmoEvent_player, gainExperience_exp, hpl]

theorem getRoom_updMonster (roomId : String) (i : Nat) (f : Monster → Monster)
    (s : St) :
    getRoom (updMonster roomId i f s).gs roomId =
      (getRoom s.gs roomId).map (fun r => { r with monsters := listUpd i f r.monsters }) := by
  unfold updMonster
  exact getRoom_updRoom _ _ _

/-- C3: when the player's damage reaches the target's current health, the
health value the defeat test inspects is at most 0 (not necessarily exactly
0), the call reports success, the monster is removed from the room, a fresh
level-0 searchable corpse is appended to the room and registered globally,
and the experience awarded is `max 5 (2 * maxHealth)`, hence at least 5. -/
theorem c3_defeat_resolution (targetName roomId : String) (s : St) (room : Room)
    (i : Nat) (m : Monster)
    (hroom : getRoom s.gs roomId = some room)
    (hfind : room.monsters.findIdx? (fun mm => lowIncludes mm.name targetName) = some i)
    (hget : room.monsters.get? i = some m)
    (hdef : m.health ≤ calculatePlayerDamage s.gs.player) :
    m.health - calculatePlayerDamage s.gs.player ≤ 0
    ∧ (handleAttack targetName roomId s).2 = true
    ∧ (∃ body room',
        getRoom (handleAttack targetName roomId s).1.gs roomId = some room'
        ∧ room'.monsters = room.monsters.eraseIdx i
        ∧ room'.deadBodies = room.deadBodies ++ [body]
        ∧ body.bodyState.decompositionLevel = 0
        ∧ body.bodyState.searchable = true
        ∧ (handleAttack targetName roomId s).1.gs.deadBodiesReg.lookup body.id
            = some body)
    ∧ (handleAttack targetName roomId s).1.gs.player.experience
        = s.gs.player.experience + max 5 (m.maxHealth * 2)
    ∧ (5 : Int) ≤ max 5 (m.maxHealth * 2) := by
  have hle : m.health - calculatePlayerDamage s.gs.player ≤ 0 := sub_nonpos.mpr hdef
  simp only [handleAttack, hroom, hfind, hget]
  rw [if_pos hle]
  by_cases hd : calculatePlayerDamage s.gs.player > 0
  · rw [if_pos hd]
    have hroom2 : getRoom (addEvent "combat" (m.name ++ " has been defeated!")
        (updRoom roomId (fun r => { r with monsters := r.monsters.eraseIdx i })
          (addEvent "combat" ("Dealt " ++ toString (calculatePlayerDamage s.gs.player)
              ++ " damage to " ++ m.name)
            (updMonster roomId i (fun _ =>
              { m with health := m.health - calculatePlayerDamage s.gs.player }) s)))).gs
        roomId = some { room with monsters := (listUpd i (fun _ =>
          { m with health := m.health - calculatePlayerDamage s.gs.player })
            room.monsters).eraseIdx i } := by
      simp only [getRoom_addEvent, getRoom_updRoom, updMonster, hroom, Option.map_some']
    obtain ⟨body, hgr, h0, hsch, hreg, hexp⟩ :=
      defeatTail_spec roomId "killed by player" ("Defeated " ++ m.name)
        { m with health := m.health - calculatePlayerDamage s.gs.player }
        (max 5 (m.maxHealth * 2)) _ _ _ hroom2
    refine ⟨hle, rfl, ⟨body, _, hgr, ?_, rfl, h0, hsch, hreg⟩, ?_, le_max_left _ _⟩
    · exact eraseIdx_listUpd _ _ _
    · rw [hexp]
      rfl
  · rw [if_neg hd]
    have hroom2 : getRoom (addEvent "combat" (m.name ++ " has been defeated!")
        (updRoom roomId (fun r => { r with monsters := r.monsters.eraseIdx i })
          (updMonster roomId i (fun _ =>
            { m with health := m.health - calculatePlayerDamage s.gs.player }) s))).gs
        roomId = some { room with monsters := (listUpd i (fun _ =>
          { m with health := m.health - calculatePlayerDamage s.gs.player })
            room.monsters).eraseIdx i } := by
      simp only [getRoom_addEvent, getRoom_updRoom, updMonster, hroom, Option.map_some']
    obtain ⟨body, hgr, h0, hsch, hreg, hexp⟩ :=
      defeatTail_spec roomId "killed by player" ("Defeated " ++ m.name)
        { m with health := m.health - calculatePlayerDamage s.gs.player }
        (max 5 (m.maxHealth * 2)) _ _ _ hroom2
    refine ⟨hle, rfl, ⟨body, _, hgr, ?_, rfl, h0, hsch, hreg⟩, ?_, le_max_left _ _⟩
    · exact eraseIdx_listUpd _ _ _
    · rw [hexp]
      rfl

/-- C3 counterexample to "health after resolution is exactly 0": the
defeat test inspects `health - damage`, which is -2 for an 8-health goblin
hit for 10, not 0. -/
theorem c3_counterexample :
    attackTargetHealthAfter "goblin" "start" stC3 = some (-2)
    ∧ attackTargetHealthAfter "goblin" "start" stC3 ≠ some 0 := by
  constructor <;> decide

/-- C3 witness: the corrected defeat-resolution theorem applied to the
goblin fixture. -/
theorem c3_witness :
    (getRoom stC3.gs "start" = some roomC3
      ∧ roomC3.monsters.findIdx? (fun mm => lowIncludes mm.name "goblin") = some 0
      ∧ roomC3.monsters.get? 0 = some (mkBeast "m2" "Goblin" 8 8 3)
      ∧ (mkBeast "m2" "Goblin" 8 8 3).health ≤ calculatePlayerDamage stC3.gs.player)
    ∧ ((mkBeast "m2" "Goblin" 8 8 3).health
          - calculatePlayerDamage stC3.gs.player ≤ 0
      ∧ (handleAttack "goblin" "start" stC3).2 = true
      ∧ (∃ body room',
          getRoom (handleAttack "goblin" "start" stC3).1.gs "start" = some room'
          ∧ room'.monsters = roomC3.monsters.eraseIdx 0
          ∧ room'.deadBodies = roomC3.deadBodies ++ [body]
          ∧ body.bodyState.decompositionLevel = 0
          ∧ body.bodyState.searchable = true
          ∧ (handleAttack "goblin" "start" stC3).1.gs.deadBodiesReg.lookup body.id
              = some body)
      ∧ (handleAttack "goblin" "start" stC3).1.gs.player.experience
          = stC3.gs.player.experience + max 5 ((mkBeast "m2" "Goblin" 8 8 3).maxHealth * 2)
      ∧ (5 : Int) ≤ max 5 ((mkBeast "m2" "Goblin" 8 8 3).maxHealth * 2)) :=
  ⟨⟨rfl, by decide, rfl, by decide⟩,
   c3_defeat_resolution "goblin" "start" stC3 roomC3 0 (mkBeast "m2" "Goblin" 8 8 3)
     rfl (by decide) rfl (by decide)⟩

/-! ## Claim C2 — the counter-attack and the player health bounds -/

/-- C2: when the target survives the blow and the combat decision is to
fight, the modifier-adjusted incoming damage is subtracted from the player
health with no floor at 0, and the game-over flag is raised exactly when
the resulting health is ≤ 0 (and otherwise left as it was). -/
theorem c2_counter_attack (targetName roomId : String) (s : St) (room : Room)
    (i : Nat) (m : Monster) (s1 : St) (dec : DecisionOut)
    (hroom : getRoom s.gs roomId = some room)
    (hfind : room.monsters.findIdx? (fun mm => lowIncludes mm.name targetName) = some i)
    (hget : room.monsters.get? i = some m)
    (hd : calculatePlayerDamage s.gs.player > 0)
    (hsurv : ¬ m.health - calculatePlayerDamage s.gs.player ≤ 0)
    (hcd : handleCombatDecision
        { m with health := m.health - calculatePlayerDamage s.gs.player }
        ((getRoom (addEvent "combat"
            ("Dealt " ++ toString (calculatePlayerDamage s.gs.player)
              ++ " damage to " ++ m.name)
          (updMonster roomId i (fun _ =>
            { m with health := m.health - calculatePlayerDamage s.gs.player }) s)).gs
          roomId).getD room)
        roomId i
        (addEvent "combat"
            ("Dealt " ++ toString (calculatePlayerDamage s.gs.player)
              ++ " damage to " ++ m.name)
          (updMonster roomId i (fun _ =>
            { m with health := m.health - calculatePlayerDamage s.gs.player }) s))
        = some (s1, dec))
    (hnr : (dec.dtype == "retreat") = false)
    (hns : (dec.dtype == "surrender") = false) :
    (handleAttack targetName roomId s).2 = true
    ∧ (handleAttack targetName roomId s).1.gs.player.health
        = s1.gs.player.health - calculateDamageTaken s1.gs.player m.damage
    ∧ (handleAttack targetName roomId s).1.gs.gameOver
        = (if s1.gs.player.health - calculateDamageTaken s1.gs.player m.damage ≤ 0
           then true else s1.gs.gameOver) := by
  simp only [handleAttack, hroom, hfind, hget]
  rw [if_pos hd, if_neg hsurv, hcd]
  simp only [hnr, hns, Bool.false_eq_true, if_false, updPlayer, addEvent]
  by_cases hdt : calculateDamageTaken s1.gs.player m.damage > 0
  · rw [if_pos hdt]
    by_cases hko : s1.gs.player.health - calculateDamageTaken s1.gs.player m.damage ≤ 0
    · rw [if_pos hko, if_pos hko]
      exact ⟨rfl, rfl, rfl⟩
    · rw [if_neg hko, if_neg hko]
      exact ⟨rfl, rfl, rfl⟩
  · rw [if_neg hdt]
    by_cases hko : s1.gs.player.health - calculateDamageTaken s1.gs.player m.damage ≤ 0
    · rw [if_pos hko, if_pos hko]
      exact ⟨rfl, rfl, rfl⟩
    · rw [if_neg hko, if_neg hko]
      exact ⟨rfl, rfl, rfl⟩

/-- C2 counterexample to "health stays within [0, maxHealth]" and "floored
at 0": a player at 5/100 health hit for 10 ends at -5. -/
theorem c2_counterexample :
    (0 ≤ stC2.gs.player.health ∧ stC2.gs.player.health ≤ stC2.gs.player.maxHealth)
    ∧ (handleAttack "giant rat" "start" stC2).1.gs.player.health = -5
    ∧ ¬ 0 ≤ (handleAttack "giant rat" "start" stC2).1.gs.player.health
    ∧ (handleAttack "giant rat" "start" stC2).1.gs.gameOver = true := by
  refine ⟨by decide, by decide, by decide, by decide⟩

/-- C2 witness: the corrected counter-attack theorem applied to the rat
fixture. -/
theorem c2_witness :
    (getRoom stC2.gs "start" = some roomC2
      ∧ roomC2.monsters.findIdx? (fun mm => lowIncludes mm.name "giant rat") = some 0
      ∧ roomC2.monsters.get? 0 = some (mkBeast "m1" "Giant Rat" 50 50 10)
      ∧ calculatePlayerDamage stC2.gs.player > 0
      ∧ ¬ (mkBeast "m1" "Giant Rat" 50 50 10).health
            - calculatePlayerDamage stC2.gs.player ≤ 0
      ∧ handleCombatDecision
          { mkBeast "m1" "Giant Rat" 50 50 10 with
            health := (mkBeast "m1" "Giant Rat" 50 50 10).health
              - calculatePlayerDamage stC2.gs.player }
          ((getRoom c2mid.gs "start").getD roomC2) "start" 0 c2mid
          = some (c2mid, ⟨"fight", true, ""⟩)
      ∧ ((⟨"fight", true, ""⟩ : DecisionOut).dtype == "retreat") = false
      ∧ ((⟨"fight", true, ""⟩ : DecisionOut).dtype == "surrender") = false)
    ∧ ((handleAttack "giant rat" "start" stC2).2 = true
      ∧ (handleAttack "giant rat" "start" stC2).1.gs.player.health
          = c2mid.gs.player.health
            - calculateDamageTaken c2mid.gs.player (mkBeast "m1" "Giant Rat" 50 50 10).damage
      ∧ (handleAttack "giant rat" "start" stC2).1.gs.gameOver
          = (if c2mid.gs.player.health
                - calculateDamageTaken c2mid.gs.player
                    (mkBeast "m1" "Giant Rat" 50 50 10).damage ≤ 0
             then true else c2mid.gs.gameOver)) :=
  ⟨⟨rfl, by decide, rfl, by decide, by decide, by decide, by decide, by decide⟩,
   c2_counter_attack "giant rat" "start" stC2 roomC2 0
     (mkBeast "m1" "Giant Rat" 50 50 10) c2mid ⟨"fight", true, ""⟩
     rfl (by decide) rfl (by decide) (by decide) (by decide) (by decide) (by decide)⟩

/-! ## Claim C8 — corpse search -/

theorem get?_set_self {α : Type} (l : List α) (i : Nat) (x : α) :
    (l.set i x).get? i = (l.get? i).map (fun _ => x) := by
  induction l generalizing i with
  | nil => rfl
  | cons a rest ih =>
    cases i with
    | zero => rfl
    | succ n => simpa [List.set, List.get?] using ih n

theorem get?_listUpd {α : Type} (i : Nat) (f : α → α) (l : List α) :
    (listUpd i f l).get? i = (l.get? i).map f := by
  unfold listUpd
  cases hg : l.get? i with
  | none => simpa using hg
  | some a =>
    rw [get?_set_self, hg]
    rfl

theorem searchFold_inventory (items : List Item) (s : St) :
    (items.foldl (fun s it =>
      addEvent "action" ("Found " ++ it.name ++ " on the body")
        (updPlayer (fun p => { p with inventory := p.inventory ++ [it] }) s))
      s).gs.player.inventory = s.gs.player.inventory ++ items := by
  induction items generalizing s with
  | nil => simp
  | cons it rest ih =>
    rw [List.foldl_cons, ih]
    simp [updPlayer, addEvent]

theorem searchFold_getRoom (items : List Item) (s : St) (id : String) :
    getRoom (items.foldl (fun s it =>
      addEvent "action" ("Found " ++ it.name ++ " on the body")
        (updPlayer (fun p => { p with inventory := p.inventory ++ [it] }) s))
      s).gs id = getRoom s.gs id := by
  induction items generalizing s with
  | nil => rfl
  | cons it rest ih =>
    rw [List.foldl_cons, ih]
    rfl

theorem getRoom_updPlayer (f : Player → Player) (s : St) (id : String) :
    getRoom (updPlayer f s).gs id = getRoom s.gs id := rfl

/-- C8: the search contract of `searchBody`.  Failed searches (unsearchable
corpse, or repeat search by the same actor — idempotence) leave the state
untouched and carry no items.  The narrator-fallback search succeeds with
the union of loot and possessions, clears the snapshot and marks the actor,
but the items land in the room, not the actor's inventory.  The
narrator-API success puts the narrated items in the actor's inventory and
marks the actor, but leaves the corpse's item snapshot intact. -/
theorem c8_search_contract (bid : String) (s : St) (room : Room) (i : Nat)
    (body : DeadBody)
    (hroom : getRoom s.gs s.gs.player.currentRoomId = some room)
    (hne : room.deadBodies.isEmpty = false)
    (hfind : room.deadBodies.findIdx?
        (fun b => b.id == bid || lowIncludes b.name bid) = some i)
    (hget : room.deadBodies.get? i = some body) :
    (body.bodyState.searchable = false →
      searchBody bid s = (s, ⟨false, [],
        "The body of " ++ body.name ++ " is too decomposed to search effectively."⟩))
    ∧ (body.bodyState.searchable = true →
       body.searchedBy.contains s.gs.player.name = true →
      searchBody bid s = (s, ⟨false, [],
        "You have already searched " ++ body.name ++ "'s body."⟩))
    ∧ (∀ rest, body.bodyState.searchable = true →
       body.searchedBy.contains s.gs.player.name = false →
       s.searchQueue = SearchOut.threw :: rest →
       (body.originalLoot ++ body.originalPossessions).isEmpty = false →
       (searchBody bid s).2.success = true
       ∧ (searchBody bid s).2.items = body.originalLoot ++ body.originalPossessions
       ∧ (searchBody bid s).1.gs.player.inventory = s.gs.player.inventory
       ∧ (∃ room', getRoom (searchBody bid s).1.gs s.gs.player.currentRoomId
             = some room'
           ∧ room'.items = room.items ++ (body.originalLoot ++ body.originalPossessions)
           ∧ room'.deadBodies.get? i = some { body with
               searchedBy := body.searchedBy ++ [s.gs.player.name],
               originalLoot := [], originalPossessions := [] }))
    ∧ (∀ rest itemsFound wr desc ei, body.bodyState.searchable = true →
       body.searchedBy.contains s.gs.player.name = false →
       s.searchQueue = SearchOut.api true itemsFound wr desc ei :: rest →
       (searchBody bid s).2 = ⟨true, itemsFound, desc⟩
       ∧ (searchBody bid s).1.gs.player.inventory = s.gs.player.inventory ++ itemsFound
       ∧ (∃ room', getRoom (searchBody bid s).1.gs s.gs.player.currentRoomId
             = some room'
           ∧ room'.items = room.items
           ∧ room'.deadBodies.get? i = some { body with
               searchedBy := body.searchedBy ++ [s.gs.player.name] })) := by
  refine ⟨?_, ?_, ?_, ?_⟩
  · intro hsb
    simp only [searchBody, hroom, hne, Bool.false_eq_true, if_false, hfind, hget,
      hsb, Bool.not_false, if_true]
  · intro hsb hcont
    simp only [searchBody, hroom, hne, Bool.false_eq_true, if_false, hfind, hget,
      hsb, Bool.not_true, hcont, if_true]
  · intro rest hsb hcont hq hnn
    simp only [searchBody, hroom, hne, Bool.false_eq_true, if_false, hfind, hget,
      hsb, Bool.not_true, hcont, popSearch, hq, hnn, if_true]
    refine ⟨by first | trivial | rfl, by first | trivial | rfl,
      by first | trivial | rfl, ?_⟩
    refine ⟨{ room with
        items := room.items ++ (body.originalLoot ++ body.originalPossessions),
        deadBodies := listUpd i (fun b => { b with
          searchedBy := b.searchedBy ++ [s.gs.player.name],
          originalLoot := ([] : List Item),
          originalPossessions := ([] : List Item) }) room.deadBodies },
      ?_, ?_, ?_⟩
    · rw [getRoom_addEvent, getRoom_updRoom, getRoom_updRoom,
        show getRoom ({ s with searchQueue := rest } : St).gs
          s.gs.player.currentRoomId = some room from hroom]
      exact rfl
    · exact rfl
    · have hmark : (listUpd i (fun b => { b with
          searchedBy := b.searchedBy ++ [s.gs.player.name],
          originalLoot := ([] : List Item),
          originalPossessions := ([] : List Item) })
          room.deadBodies).get? i = some { body with
            searchedBy := body.searchedBy ++ [s.gs.player.name],
            originalLoot := [], originalPossessions := [] } := by
        rw [get?_listUpd, hget]
        rfl
      exact hmark
  · intro rest itemsFound wr desc ei hsb hcont hq
    simp only [searchBody, hroom, hne, Bool.false_eq_true, if_false, hfind, hget,
      hsb, Bool.not_true, hcont, popSearch, hq, if_true]
    refine ⟨by first | trivial | rfl, ?_, ?_⟩
    · split_ifs <;>
        (simp only [addEvent_player, pushEmoEvent_player]
         rw [searchFold_inventory]
         rfl)
    · have hmark : (listUpd i (fun b => { b with
          searchedBy := b.searchedBy ++ [s.gs.player.name] })
          room.deadBodies).get? i = some { body with
            searchedBy := body.searchedBy ++ [s.gs.player.name] } := by
        rw [get?_listUpd, hget]
        rfl
      split_ifs <;>
        (refine ⟨{ room with
            deadBodies := listUpd i (fun b => { b with
              searchedBy := b.searchedBy ++ [s.gs.player.name] })
              room.deadBodies }, ?_, rfl, hmark⟩
         simp only [getRoom_addEvent, getRoom_pushEmoEvent, searchFold_getRoom]
         rw [getRoom_updRoom,
           show getRoom ({ s with searchQueue := rest } : St).gs
             s.gs.player.currentRoomId = some room from hroom]
         exact rfl)

/-- C8 counterexample to "transfers the items to the searching actor": the
fallback search succeeds with the corpse's sword, yet the player's
inventory is unchanged (the sword went to the room's floor). -/
theorem c8_counterexample :
    (searchBody "b1" stC8).2.success = true
    ∧ (searchBody "b1" stC8).2.items = corpseC8.originalLoot
    ∧ (searchBody "b1" stC8).2.items ≠ []
    ∧ (searchBody "b1" stC8).1.gs.player.inventory = stC8.gs.player.inventory := by
  refine ⟨by decide, by decide, by decide, by decide⟩

/-- C8 witness: the search contract applied to the fixture corpse. -/
theorem c8_witness :
    (getRoom stC8.gs stC8.gs.player.currentRoomId = some roomC8
      ∧ roomC8.deadBodies.isEmpty = false
      ∧ roomC8.deadBodies.findIdx?
          (fun b => b.id == "b1" || lowIncludes b.name "b1") = some 0
      ∧ roomC8.deadBodies.get? 0 = some corpseC8)
    ∧ ((corpseC8.bodyState.searchable = false →
        searchBody "b1" stC8 = (stC8, ⟨false, [],
          "The body of " ++ corpseC8.name ++ " is too decomposed to search effectively."⟩))
      ∧ (corpseC8.bodyState.searchable = true →
         corpseC8.searchedBy.contains stC8.gs.player.name = true →
        searchBody "b1" stC8 = (stC8, ⟨false, [],
          "You have already searched " ++ corpseC8.name ++ "'s body."⟩))
      ∧ (∀ rest, corpseC8.bodyState.searchable = true →
         corpseC8.searchedBy.contains stC8.gs.player.name = false →
         stC8.searchQueue = SearchOut.threw :: rest →
         (corpseC8.originalLoot ++ corpseC8.originalPossessions).isEmpty = false →
         (searchBody "b1" stC8).2.success = true
         ∧ (searchBody "b1" stC8).2.items
             = corpseC8.originalLoot ++ corpseC8.originalPossessions
         ∧ (searchBody "b1" stC8).1.gs.player.inventory = stC8.gs.player.inventory
         ∧ (∃ room', getRoom (searchBody "b1" stC8).1.gs stC8.gs.player.currentRoomId
               = some room'
             ∧ room'.items = roomC8.items
                 ++ (corpseC8.originalLoot ++ corpseC8.originalPossessions)
             ∧ room'.deadBodies.get? 0 = some { corpseC8 with
                 searchedBy := corpseC8.searchedBy ++ [stC8.gs.player.name],
                 originalLoot := [], originalPossessions := [] }))
      ∧ (∀ rest itemsFound wr desc ei, corpseC8.bodyState.searchable = true →
         corpseC8.searchedBy.contains stC8.gs.player.name = false →
         stC8.searchQueue = SearchOut.api true itemsFound wr desc ei :: rest →
         (searchBody "b1" stC8).2 = ⟨true, itemsFound, desc⟩
         ∧ (searchBody "b1" stC8).1.gs.player.inventory
             = stC8.gs.player.inventory ++ itemsFound
         ∧ (∃ room', getRoom (searchBody "b1" stC8).1.gs stC8.gs.player.currentRoomId
               = some room'
             ∧ room'.items = roomC8.items
             ∧ room'.deadBodies.get? 0 = some { corpseC8 with
                 searchedBy := corpseC8.searchedBy ++ [stC8.gs.player.name] }))) :=
  ⟨⟨rfl, rfl, by decide, rfl⟩,
   c8_search_contract "b1" stC8 roomC8 0 corpseC8 rfl rfl (by decide) rfl⟩

/-! ## Claim C9 — room generation and the required exits -/

theorem mkFallbackDoors_directions (dirs : List String) (acc : List Door) (s : St) :
    (mkFallbackDoors dirs acc s).1.map Door.direction
      = acc.map Door.direction ++ dirs := by
  induction dirs generalizing acc s with
  | nil => simp [mkFallbackDoors]
  | cons dir rest ih =>
    simp only [mkFallbackDoors, popUuid]
    rw [ih]
    simp

theorem mkFallbackDoors_leadsTo (dirs : List String) (acc : List Door) (s : St) :
    (mkFallbackDoors dirs acc s).1.map Door.leadsTo
      = acc.map Door.leadsTo ++ dirs.map (fun _ => (none : Option String)) := by
  induction dirs generalizing acc s with
  | nil => simp [mkFallbackDoors]
  | cons dir rest ih =>
    simp only [mkFallbackDoors, popUuid]
    rw [ih]
    simp

theorem mkFallbackDoors_mem (dirs : List String) (acc : List Door) (s : St) :
    ∀ d ∈ (mkFallbackDoors dirs acc s).1,
      d ∈ acc ∨ (d.locked = false ∧ d.leadsTo = none) := by
  induction dirs generalizing acc s with
  | nil =>
    intro d hd
    exact Or.inl hd
  | cons dir rest ih =>
    intro d hd
    simp only [mkFallbackDoors, popUuid] at hd
    rcases ih _ _ d hd with hmem | hnew
    · rcases List.mem_append.mp hmem with h | h
      · exact Or.inl h
      · simp only [List.mem_singleton] at h
        subst h
        exact Or.inr ⟨rfl, rfl⟩
    · exact Or.inr hnew

theorem linkFirstDoor_directions (dir t : String) (l : List Door) :
    (linkFirstDoor dir t l).map Door.direction = l.map Door.direction := by
  induction l with
  | nil => rfl
  | cons d rest ih =>
    unfold linkFirstDoor
    split <;> simp [ih]

theorem find?_linkFirstDoor (dir t : String) (l : List Door) :
    (linkFirstDoor dir t l).find? (fun d => d.direction == dir)
      = (l.find? (fun d => d.direction == dir)).map
          (fun d => { d with leadsTo := some t }) := by
  induction l with
  | nil => rfl
  | cons d rest ih =>
    cases h : (d.direction == dir) with
    | true => simp [linkFirstDoor, List.find?, h]
    | false => simp [linkFirstDoor, List.find?, h, ih]

theorem lookup_mapSet_ne {α : Type} (k k' : String) (v : α) (m : List (String × α))
    (h : (k' == k) = false) :
    (mapSet k v m).lookup k' = m.lookup k' := by
  induction m with
  | nil => simp [mapSet, List.lookup, h]
  | cons kv rest ih =>
    cases kv with
    | mk a b =>
      by_cases hk : (k == a) = true
      · simp only [mapSet, hk, if_true]
        have h1 : (k' == a) = false := by
          have := beq_iff_eq.mp hk
          subst this
          exact h
        simp [List.lookup, h, h1]
      · have hk' : (k == a) = false := by
          cases hx : (k == a) with
          | true => cases hk hx
          | false => rfl
        simp only [mapSet, hk', Bool.false_eq_true, if_false]
        cases hx : (k' == a) with
        | true => simp [List.lookup, hx]
        | false => simpa [List.lookup, hx] using ih

theorem lookup_mapUpdKey_ne (id id' : String) (f : Room → Room)
    (m : List (String × Room)) (h : (id' == id) = false) :
    (mapUpdKey id f m).lookup id' = m.lookup id' := by
  induction m with
  | nil => rfl
  | cons kv rest ih =>
    cases kv with
    | mk a b =>
      unfold mapUpdKey
      by_cases hk : (a == id) = true
      · rw [if_pos hk]
        have h1 : (id' == a) = false := by
          have := beq_iff_eq.mp hk
          subst this
          exact h
        simp [List.lookup, h1, ih]
      · rw [if_neg hk]
        cases hx : (id' == a) with
        | true => simp [List.lookup, hx]
        | false => simpa [List.lookup, hx] using ih

theorem getRoom_setRoom_ne (r : Room) (s : St) (id : String)
    (h : (id == r.id) = false) :
    getRoom (setRoom r s).gs id = getRoom s.gs id := by
  unfold getRoom setRoom
  exact lookup_mapSet_ne r.id id r s.gs.rooms h

theorem getRoom_updRoom_ne (id id' : String) (f : Room → Room) (s : St)
    (h : (id' == id) = false) :
    getRoom (updRoom id f s).gs id' = getRoom s.gs id' := by
  unfold getRoom updRoom
  exact lookup_mapUpdKey_ne id id' f s.gs.rooms h

/-- C9: room generation and movement through an unlinked door.  On
generator failure the fallback room's doors are exactly one unlocked
linked back door facing the opposite direction followed by one unlocked,
unlinked door per previously drawn extra direction.  On generator success
the doors are only the generator's own doors with the first
opposite-facing one linked — a missing required direction is never
synthesized.  Moving through an unlocked, unlinked door links the origin
room's first door of that direction to the new room's id. -/
theorem c9_room_generation (direction : String) (s : St)
    (dirs : List String) (qrest : List (List String)) :
    (∀ grest, s.extraDirsQueue = dirs :: qrest → s.genRoomQueue = none :: grest →
      (generateNewRoom direction s).1.doors.map Door.direction
          = getOppositeDirection direction :: dirs
      ∧ (generateNewRoom direction s).1.doors.map Door.leadsTo
          = some s.gs.player.currentRoomId :: dirs.map (fun _ => (none : Option String))
      ∧ ∀ d ∈ (generateNewRoom direction s).1.doors, d.locked = false)
    ∧ (∀ g grest, s.extraDirsQueue = dirs :: qrest → s.genRoomQueue = some g :: grest →
      (generateNewRoom direction s).1.doors
          = linkFirstDoor (getOppositeDirection direction)
              s.gs.player.currentRoomId g.doors
      ∧ (generateNewRoom direction s).1.doors.map Door.direction
          = g.doors.map Door.direction)
    ∧ (∀ (room : Room) (door : Door),
      getRoom s.gs s.gs.player.currentRoomId = some room →
      room.doors.find? (fun d => lowEq d.direction direction) = some door →
      door.locked = false →
      door.leadsTo = none →
      ((generateNewRoom direction s).1.id == s.gs.player.currentRoomId) = false →
      (handleMovement direction s).2 = true
      ∧ (∃ room', getRoom (handleMovement direction s).1.gs
            s.gs.player.currentRoomId = some room'
        ∧ room'.doors = linkFirstDoor door.direction
            (generateNewRoom direction s).1.id room.doors
        ∧ room'.doors.find? (fun d => d.direction == door.direction)
            = (room.doors.find? (fun d => d.direction == door.direction)).map
                (fun d => { d with
                  leadsTo := some (generateNewRoom direction s).1.id }))) := by
  refine ⟨?_, ?_, ?_⟩
  · intro grest hq hg
    simp only [generateNewRoom, popExtraDirs, hq, popGenRoom, hg, popUuid]
    refine ⟨?_, ?_, ?_⟩
    · rw [mkFallbackDoors_directions]
      rfl
    · rw [mkFallbackDoors_leadsTo]
      rfl
    · intro d hd
      rcases mkFallbackDoors_mem _ _ _ d hd with hmem | hnew
      · simp only [List.mem_singleton] at hmem
        subst hmem
        rfl
      · exact hnew.1
  · intro g grest hq hg
    simp only [generateNewRoom, popExtraDirs, hq, popGenRoom, hg]
    refine ⟨by first | trivial | rfl, ?_⟩
    exact linkFirstDoor_directions _ _ _
  · intro room door hroom hfd hlock hlt hid
    rcases hgen : generateNewRoom direction s with ⟨newRoom, s2⟩
    have hs2 : s2.gs = s.gs := by
      have h := generateNewRoom_gs direction s
      rw [hgen] at h
      exact h
    have hid' : (newRoom.id == s.gs.player.currentRoomId) = false := by
      rw [hgen] at hid
      exact hid
    have hid2 : (s.gs.player.currentRoomId == newRoom.id) = false :=
      beq_eq_false_iff_ne.mpr (Ne.symm (beq_eq_false_iff_ne.mp hid'))
    simp only [handleMovement, hroom, hfd, hlock, Bool.false_eq_true, if_false,
      hlt, hgen]
    have htarget : getRoom (updPlayer (fun p => { p with currentRoomId := newRoom.id })
        (setRoom newRoom (updRoom s.gs.player.currentRoomId (fun r =>
          { r with doors := linkFirstDoor door.direction newRoom.id r.doors })
          s2))).gs newRoom.id = some newRoom := by
      rw [getRoom_updPlayer]
      unfold getRoom setRoom
      exact lookup_mapSet_self _ _ _
    simp only [htarget]
    have horigin : getRoom (updPlayer (fun p => { p with currentRoomId := newRoom.id })
        (setRoom newRoom (updRoom s.gs.player.currentRoomId (fun r =>
          { r with doors := linkFirstDoor door.direction newRoom.id r.doors })
          s2))).gs s.gs.player.currentRoomId
        = some { room with doors := linkFirstDoor door.direction newRoom.id room.doors } := by
      rw [getRoom_updPlayer, getRoom_setRoom_ne _ _ _ hid2, getRoom_updRoom,
        show getRoom s2.gs s.gs.player.currentRoomId = some room from hs2 ▸ hroom]
      exact rfl
    cases hv : newRoom.visited with
    | true =>
      simp only [hv, Bool.not_true, Bool.false_eq_true, if_false]
      exact ⟨trivial, ⟨_, (getRoom_addEvent _ _ _ _).trans horigin, rfl,
        find?_linkFirstDoor _ _ _⟩⟩
    | false =>
      simp only [hv, Bool.not_false, if_true]
      exact ⟨trivial, ⟨_, (getRoom_addEvent _ _ _ _).trans
        ((getRoom_gainExperience _ _ _ _).trans
          ((getRoom_updRoom_ne _ _ _ _ hid2).trans horigin)), rfl,
        find?_linkFirstDoor _ _ _⟩⟩

/-- C9 counterexample to "any required direction missing from the
generator's output is synthesized locally": the generator answers with a
room that has no doors at all, and the engine keeps it doorless — not even
the mandatory back door is synthesized. -/
theorem c9_counterexample :
    stC9.genRoomQueue = [some bareGenRoom]
    ∧ bareGenRoom.doors = []
    ∧ (generateNewRoom "north" stC9).1.doors = [] :=
  ⟨rfl, rfl, by decide⟩

/-- C9 witness: generation and scenario-B movement on the fixture with a
failing generator and one extra drawn direction. -/
theorem c9_witness :
    (stC9b.extraDirsQueue = ["east"] :: []
      ∧ stC9b.genRoomQueue = none :: []
      ∧ getRoom stC9b.gs stC9b.gs.player.currentRoomId = some roomC9b
      ∧ roomC9b.doors.find? (fun d => lowEq d.direction "north") = some doorC9b
      ∧ doorC9b.locked = false
      ∧ doorC9b.leadsTo = none
      ∧ ((generateNewRoom "north" stC9b).1.id == stC9b.gs.player.currentRoomId)
          = false)
    ∧ ((generateNewRoom "north" stC9b).1.doors.map Door.direction
          = getOppositeDirection "north" :: ["east"]
      ∧ (generateNewRoom "north" stC9b).1.doors.map Door.leadsTo
          = some stC9b.gs.player.currentRoomId
              :: (["east"].map (fun _ => (none : Option String)))
      ∧ (∀ d ∈ (generateNewRoom "north" stC9b).1.doors, d.locked = false))
    ∧ ((handleMovement "north" stC9b).2 = true
      ∧ (∃ room', getRoom (handleMovement "north" stC9b).1.gs
            stC9b.gs.player.currentRoomId = some room'
        ∧ room'.doors = linkFirstDoor doorC9b.direction
            (generateNewRoom "north" stC9b).1.id roomC9b.doors
        ∧ room'.doors.find? (fun d => d.direction == doorC9b.direction)
            = (roomC9b.doors.find? (fun d => d.direction == doorC9b.direction)).map
                (fun d => { d with
                  leadsTo := some (generateNewRoom "north" stC9b).1.id }))) :=
  ⟨⟨rfl, rfl, rfl, by decide, rfl, rfl, by decide⟩,
   (c9_room_generation "north" stC9b ["east"] []).1 [] rfl rfl,
   (c9_room_generation "north" stC9b ["east"] []).2.2 roomC9b doorC9b rfl
     (by decide) rfl rfl (by decide)⟩

/-! ## Claim C1 — the turn counter and the two per-turn ticks

Turn-counter framing lemmas for every handler reachable from a non-talk
turn. -/

theorem updMonster_turn (roomId : String) (i : Nat) (f : Monster → Monster)
    (s : St) : (updMonster roomId i f s).gs.currentTurn = s.gs.currentTurn := rfl

theorem gainExperience_turn (a : Int) (r : String) (s : St) :
    (gainExperience a r s).gs.currentTurn = s.gs.currentTurn := by
  unfold gainExperience levelUp updPlayer addEvent
  simp only []
  split <;> rfl

theorem createPersistentBody_turn (m : Monster) (roomId cause : String) (s : St) :
    (createPersistentBody m roomId cause s).gs.currentTurn = s.gs.currentTurn := by
  unfold createPersistentBody
  split
  · rfl
  · rcases hp : popLoot s with ⟨items, s1⟩
    rcases hu : popUuid s1 with ⟨u, s2⟩
    have h1 : s1.gs = s.gs := by
      rw [show s1 = (popLoot s).2 from by rw [hp], popLoot_gs]
    have h2 : s2.gs = s1.gs := by
      rw [show s2 = (popUuid s1).2 from by rw [hu], popUuid_gs]
    simp only [hp, hu, addEvent_turn, regSet_turn, updRoom_turn, h2, h1]

theorem processStatusEffect_turn (st : StatusEffect) (s : St) :
    (processStatusEffect st s).gs.currentTurn = s.gs.currentTurn := by
  unfold processStatusEffect
  cases hd : st.effects >>= Effects.damagePerTurn <;>
    cases hh : st.effects >>= Effects.healingPerTurn <;>
      simp only [hd, hh] <;> split_ifs <;> rfl

theorem updateStatusEffectsSt_turn (s : St) :
    (updateStatusEffectsSt s).gs.currentTurn = s.gs.currentTurn := by
  unfold updateStatusEffectsSt
  have hfold : ∀ (l : List StatusEffect) (x : St),
      (l.foldl (fun s st => processStatusEffect st s) x).gs.currentTurn
        = x.gs.currentTurn :=
    fun l x => foldl_preserves_turn _ processStatusEffect_turn l x
  rcases hdf : decAndFilter s.gs.player.statuses with ⟨keep, evs⟩
  simp only [hdf]
  exact hfold _ _

theorem removeFold_turn (l : List DeadBody) (s : St) :
    (l.foldl removeBodyStep s).gs.currentTurn = s.gs.currentTurn := by
  induction l generalizing s with
  | nil => rfl
  | cons b rest ih => rw [List.foldl_cons, ih]; rfl

theorem updateBodyDecomposition_turn (s : St) :
    (updateBodyDecomposition s).gs.currentTurn = s.gs.currentTurn := by
  unfold updateBodyDecomposition
  split
  · rfl
  · split
    · rfl
    · rw [removeFold_turn]
      rfl

theorem addStatusOne_turn (st : StatusEffect) (s : St) :
    (addStatusOne st s).gs.currentTurn = s.gs.currentTurn := by
  unfold addStatusOne
  split <;> rfl

theorem applyStateChanges_turn (ch : StateChanges) (s : St) :
    (applyStateChanges ch s).gs.currentTurn = s.gs.currentTurn := by
  unfold applyStateChanges
  have hfold : ∀ (l : List StatusEffect) (x : St),
      (l.foldl (fun s st => addStatusOne st s) x).gs.currentTurn = x.gs.currentTurn :=
    fun l x => foldl_preserves_turn _ addStatusOne_turn l x
  cases hh : ch.health <;>
    simp only [hh] <;> split_ifs <;>
      first
      | exact hfold _ _
      | (split
         · exact hfold _ _
         · exact hfold _ _)

theorem removeItemFromInventory_turn (n : String) (s : St) :
    (removeItemFromInventory n s).1.gs.currentTurn = s.gs.currentTurn := by
  unfold removeItemFromInventory
  split <;> rfl

theorem removeItemFromRoom_turn (n : String) (s : St) :
    (removeItemFromRoom n s).1.gs.currentTurn = s.gs.currentTurn := by
  unfold removeItemFromRoom
  split
  · rfl
  · split <;> rfl

theorem removeItemBoth_turn (n : String) (s : St) :
    (removeItemBoth n s).gs.currentTurn = s.gs.currentTurn := by
  unfold removeItemBoth
  rcases hr : removeItemFromInventory n s with ⟨s1, removed⟩
  have h1 : s1.gs.currentTurn = s.gs.currentTurn := by
    have h := removeItemFromInventory_turn n s
    rw [hr] at h
    exact h
  simp only [hr]
  split_ifs
  · exact h1
  · rw [removeItemFromRoom_turn, h1]

theorem addItemIntent_turn (it : Item) (s : St) :
    (addItemIntent it s).gs.currentTurn = s.gs.currentTurn := by
  unfold addItemIntent popUuid
  split_ifs <;> rfl

theorem handleTakeItem_turn (n roomId : String) (s : St) :
    (handleTakeItem n roomId s).gs.currentTurn = s.gs.currentTurn := by
  simp only [handleTakeItem]
  repeat' split
  all_goals rfl

theorem handleUseItem_turn (n : String) (s : St) :
    (handleUseItem n s).gs.currentTurn = s.gs.currentTurn := by
  simp only [handleUseItem]
  repeat' split
  all_goals rfl

theorem handleCrafting_turn (names : String) (s : St) :
    (handleCrafting names s).gs.currentTurn = s.gs.currentTurn := by
  simp only [handleCrafting]
  split_ifs
  · rfl
  · rcases hc : popCraft s with ⟨out, s1⟩
    have h1 : s1.gs = s.gs := by
      rw [show s1 = (popCraft s).2 from by rw [hc], popCraft_gs]
    simp only [hc]
    have hfold : ∀ (l : List Item) (x : St),
        (l.foldl (fun s item =>
          match s.gs.player.inventory.findIdx? (fun i => i.id == item.id) with
          | some idx => updPlayer (fun p =>
              { p with inventory := p.inventory.eraseIdx idx }) s
          | none => s) x).gs.currentTurn = x.gs.currentTurn := by
      intro l
      induction l with
      | nil => intro x; rfl
      | cons it rest ih =>
        intro x
        rw [List.foldl_cons, ih]
        split <;> rfl
    cases out with
    | ok crafted => rw [gainExperience_turn, addEvent_turn, updPlayer_turn, hfold, h1]
    | noResult => rw [addEvent_turn, h1]
    | threw => rw [addEvent_turn, h1]

theorem executeRetreat_turn (m : Monster) (room : Room) (roomId : String)
    (i : Nat) (s : St) :
    (executeRetreat m room roomId i s).1.gs.currentTurn = s.gs.currentTurn := by
  simp only [executeRetreat]
  rcases hr : popRand s with ⟨rand, s1⟩
  have h1 : s1.gs = s.gs := by
    rw [show s1 = (popRand s).2 from by rw [hr], popRand_gs]
  simp only [hr]
  split_ifs <;> simp only [pushEmoEvent_turn, updMonster_turn, h1]

theorem executeSurrender_turn (m : Monster) (room : Room) (roomId : String)
    (i : Nat) (s : St) :
    (executeSurrender m room roomId i s).1.gs.currentTurn = s.gs.currentTurn := rfl

theorem handleCombatDecision_turn (m : Monster) (room : Room) (roomId : String)
    (i : Nat) (s s1 : St) (dec : DecisionOut)
    (h : handleCombatDecision m room roomId i s = some (s1, dec)) :
    s1.gs.currentTurn = s.gs.currentTurn := by
  unfold handleCombatDecision at h
  rcases hs : checkSurrenderConditions m with _ | b
  · rw [hs] at h
    cases h
  · rw [hs] at h
    cases b with
    | true =>
      simp only [] at h
      have := executeSurrender_turn m room roomId i s
      rcases hes : executeSurrender m room roomId i s with ⟨s2, d2⟩
      rw [hes] at h this
      cases h
      exact this
    | false =>
      simp only [] at h
      rcases hr : checkRetreatConditions m with _ | b2
      · rw [hr] at h
        cases h
      · rw [hr] at h
        cases b2 with
        | true =>
          simp only [] at h
          have := executeRetreat_turn m room roomId i s
          rcases her : executeRetreat m room roomId i s with ⟨s2, d2⟩
          rw [her] at h this
          cases h
          exact this
        | false =>
          simp only [] at h
          cases h
          rfl

theorem handleMovement_turn (d : String) (s : St) :
    (handleMovement d s).1.gs.currentTurn = s.gs.currentTurn := by
  simp only [handleMovement]
  split
  · rfl
  next room hroom =>
    split
    · rfl
    next door hdoor =>
      split_ifs with hlock
      · rfl
      · rcases hlt : door.leadsTo with _ | t
        · simp only [hlt]
          rcases hgen : generateNewRoom d s with ⟨newRoom, s2⟩
          have h2 : s2.gs = s.gs := by
            have h := generateNewRoom_gs d s
            rw [hgen] at h
            exact h
          simp only []
          split
          · simp only [setRoom_turn, updRoom_turn, updPlayer_turn, h2]
          · split_ifs <;>
              simp only [addEvent_turn, gainExperience_turn, updRoom_turn,
                updPlayer_turn, setRoom_turn, h2]
        · simp only [hlt]
          split
          · rfl
          · split_ifs <;>
              simp only [addEvent_turn, gainExperience_turn, updRoom_turn,
                updPlayer_turn]

theorem handleAttack_turn (tn roomId : String) (s : St) :
    (handleAttack tn roomId s).1.gs.currentTurn = s.gs.currentTurn := by
  simp only [handleAttack]
  split
  · rfl
  · split
    · rfl
    · split
      · rfl
      · split_ifs <;>
          first
          | simp only [pushEmoEvent_turn, gainExperience_turn,
              createPersistentBody_turn, addEvent_turn, updRoom_turn,
              updMonster_turn]
          | (split
             · simp only [addEvent_turn, updMonster_turn]
             next s1 dec hcd =>
               have h1 := handleCombatDecision_turn _ _ _ _ _ _ _ hcd
               split_ifs <;>
                 (simp only [addEvent_turn, updRoom_turn, updMonster_turn,
                    updPlayer_turn, pushEmoEvent_turn] <;> exact h1))

theorem attackFold_turn (targets : List String) (roomId : String) (s : St) :
    (attackFold targets roomId s).1.gs.currentTurn = s.gs.currentTurn := by
  induction targets generalizing s with
  | nil => rfl
  | cons t rest ih =>
    unfold attackFold
    rcases ha : handleAttack t roomId s with ⟨s1, ok⟩
    have h1 : s1.gs.currentTurn = s.gs.currentTurn := by
      have h := handleAttack_turn t roomId s
      rw [ha] at h
      exact h
    cases ok with
    | true =>
      simp only [ha]
      rw [ih]
      exact h1
    | false =>
      simp only [ha]
      exact h1

theorem searchBody_turn (bid : String) (s : St) :
    (searchBody bid s).1.gs.currentTurn = s.gs.currentTurn := by
  simp only [searchBody]
  split
  · rfl
  · split
    · rfl
    · split
      · rfl
      · split
        · rfl
        · split
          · rfl
          · split
            · rfl
            · rcases hp : popSearch s with ⟨out, s1⟩
              have h1 : s1.gs = s.gs := by
                rw [show s1 = (popSearch s).2 from by rw [hp], popSearch_gs]
              simp only [hp]
              have hfold : ∀ (l : List Item) (x : St),
                  (l.foldl (fun s it =>
                    addEvent "action" ("Found " ++ it.name ++ " on the body")
                      (updPlayer (fun p =>
                        { p with inventory := p.inventory ++ [it] }) s))
                    x).gs.currentTurn = x.gs.currentTurn := by
                intro l
                induction l with
                | nil => intro x; rfl
                | cons it rest ih => intro x; rw [List.foldl_cons, ih]; rfl
              cases out with
              | api success items wr desc ei =>
                simp only []
                split_ifs <;>
                  simp only [addEvent_turn, pushEmoEvent_turn, hfold,
                    updRoom_turn, h1]
              | threw =>
                simp only []
                split_ifs <;>
                  simp only [addEvent_turn, updRoom_turn, h1]

theorem handleSearchAction_turn (t : String) (s : St) :
    (handleSearchAction t s).1.gs.currentTurn = s.gs.currentTurn := by
  simp only [handleSearchAction]
  split
  · rfl
  · split_ifs <;> try rfl
    rcases hs : searchBody t s with ⟨s1, res⟩
    have h1 : s1.gs.currentTurn = s.gs.currentTurn := by
      have h := searchBody_turn t s
      rw [hs] at h
      exact h
    simp only [hs]
    exact h1

theorem executeLLMAction_turn (a : Intent) (s : St) :
    (executeLLMAction a s).1.gs.currentTurn = s.gs.currentTurn := by
  simp only [executeLLMAction]
  split
  · rfl
  next room0 hroom0 =>
    have hsc : ∀ x : St, ((match a.stateChanges with
        | some ch => applyStateChanges ch x
        | none => x) : St).gs.currentTurn = x.gs.currentTurn := by
      intro x
      cases a.stateChanges with
      | none => rfl
      | some ch => exact applyStateChanges_turn ch x
    have hrem : ∀ x : St, (a.itemsToRemove.foldl (fun s n => removeItemBoth n s)
        x).gs.currentTurn = x.gs.currentTurn :=
      fun x => foldl_preserves_turn _ removeItemBoth_turn _ x
    have hadd : ∀ x : St, (a.itemsToAdd.foldl (fun s it => addItemIntent it s)
        x).gs.currentTurn = x.gs.currentTurn :=
      fun x => foldl_preserves_turn _ addItemIntent_turn _ x
    have htake : ∀ x : St, (a.itemsToTake.foldl (fun s n =>
        handleTakeItem n room0.id s) x).gs.currentTurn = x.gs.currentTurn :=
      fun x => foldl_preserves_turn _ (fun n x => handleTakeItem_turn n room0.id x) _ x
    have huse : ∀ x : St, (a.itemsToUse.foldl (fun s n => handleUseItem n s)
        x).gs.currentTurn = x.gs.currentTurn :=
      fun x => foldl_preserves_turn _ handleUseItem_turn _ x
    have hmv : ∀ x : St, ((match a.moveDirection with
        | some d => handleMovement d x
        | none => (x, true)) : St × Bool).1.gs.currentTurn = x.gs.currentTurn := by
      intro x
      cases a.moveDirection with
      | none => rfl
      | some d => exact handleMovement_turn d x
    have hcr : ∀ x : St, ((match a.itemsToCraft with
        | some ns => handleCrafting (String.intercalate " and " ns) x
        | none => x) : St).gs.currentTurn = x.gs.currentTurn := by
      intro x
      cases a.itemsToCraft with
      | none => rfl
      | some ns => exact handleCrafting_turn _ x
    have hbs : ∀ x : St, (a.bodiesToSearch.foldl (fun s t =>
        let (s, res) := handleSearchAction t s
        addEvent "action" res.2 s) x).gs.currentTurn = x.gs.currentTurn := by
      intro x
      refine foldl_preserves_turn _ ?_ _ x
      intro t y
      rcases hs : handleSearchAction t y with ⟨y1, res⟩
      have h := handleSearchAction_turn t y
      rw [hs] at h
      simpa [hs] using h
    have hce : ∀ x : St, (a.customEffects.foldl (fun s ce =>
        addEvent (if ce.1 == "" then "action" else ce.1)
          (if ce.2 == "" then "Something strange happens..." else ce.2) s)
        x).gs.currentTurn = x.gs.currentTurn := by
      intro x
      refine foldl_preserves_turn _ ?_ _ x
      intro ce y
      exact addEvent_turn _ _ _
    split
    next sm hm =>
      have hm' : sm.gs.currentTurn = s.gs.currentTurn := by
        have h := hmv (((a.itemsToUse.foldl (fun s n => handleUseItem n s)
          (a.itemsToTake.foldl (fun s n => handleTakeItem n room0.id s)
            (a.itemsToAdd.foldl (fun s it => addItemIntent it s)
              (a.itemsToRemove.foldl (fun s n => removeItemBoth n s)
                (match a.stateChanges with
                 | some ch => applyStateChanges ch s
                 | none => s)))))))
        rw [hm] at h
        rw [h, huse, htake, hadd, hrem, hsc]
      exact hm'
    next sm hm =>
      have hm' : sm.gs.currentTurn = s.gs.currentTurn := by
        have h := hmv (((a.itemsToUse.foldl (fun s n => handleUseItem n s)
          (a.itemsToTake.foldl (fun s n => handleTakeItem n room0.id s)
            (a.itemsToAdd.foldl (fun s it => addItemIntent it s)
              (a.itemsToRemove.foldl (fun s n => removeItemBoth n s)
                (match a.stateChanges with
                 | some ch => applyStateChanges ch s
                 | none => s)))))))
        rw [hm] at h
        rw [h, huse, htake, hadd, hrem, hsc]
      split
      next sa ha =>
        have ha' : sa.gs.currentTurn = s.gs.currentTurn := by
          have h := attackFold_turn a.targetsToAttack room0.id sm
          rw [ha] at h
          rw [h, hm']
        exact ha'
      next sa ha =>
        have ha' : sa.gs.currentTurn = s.gs.currentTurn := by
          have h := attackFold_turn a.targetsToAttack room0.id sm
          rw [ha] at h
          rw [h, hm']
        rw [hce, hbs, hcr, ha']

theorem applyLLMActions_turn (intents : List Intent) (s : St) :
    (applyLLMActions intents s).1.gs.currentTurn = s.gs.currentTurn := by
  induction intents generalizing s with
  | nil => rfl
  | cons a rest ih =>
    unfold applyLLMActions
    rcases he : executeLLMAction a s with ⟨s1, ok⟩
    have h1 : s1.gs.currentTurn = s.gs.currentTurn := by
      have h := executeLLMAction_turn a s
      rw [he] at h
      exact h
    cases ok with
    | true =>
      simp only [he]
      rw [ih, h1]
    | false =>
      simp only [he]
      exact h1

theorem pregenStep_turn (a : PlayerActionT) (room : Room) (s : St) :
    (pregenStep a room s).gs.currentTurn = s.gs.currentTurn := by
  simp only [pregenStep]
  split_ifs with hmove
  · split
    next t ht =>
      split
      next door hdoor =>
        split_ifs with hcond
        · rcases hgen : generateNewRoom t s with ⟨newRoom, s2⟩
          have h2 : s2.gs = s.gs := by
            have h := generateNewRoom_gs t s
            rw [hgen] at h
            exact h
          simp only []
          rw [setRoom_turn, updRoom_turn, h2]
        · rfl
      next => rfl
    next => rfl
  · rfl

theorem stageApply_turn (a : PlayerActionT) (resp : ProcResp) (s : St) :
    (stageApply a resp s).1.gs.currentTurn = s.gs.currentTurn := by
  simp only [stageApply]
  split_ifs <;>
    first
    | rfl
    | rw [applyLLMActions_turn, addEvent_turn, addEvent_turn]

/-- C1: a non-talk turn that runs to completion — the room exists, the
interpreter answered, and applying the intents did not raise — advances
the turn counter by exactly 1 and runs the status-effect tick and the
corpse-decomposition tick exactly once each (the ghost tick counters both
advance by exactly 1), whatever the intents contained.  (Talk turns
complete without running either tick; see the counterexample.) -/
theorem c1_turn_ticks (a : PlayerActionT) (api : TurnApi) (talk : TalkApi)
    (e : Exec) (currentRoom : Room) (resp : ProcResp)
    (hroom : getRoom e.st.gs e.st.gs.player.currentRoomId = some currentRoom)
    (hnt : (a.ptype == "talk" || (a.ptype == "custom" && isTalkAction a.details))
        = false)
    (hapi : api.resp = some resp)
    (hok : (stageApply a resp (pregenStep a currentRoom e.st)).2 = true) :
    (processAction a api talk e).1.st.gs.currentTurn = e.st.gs.currentTurn + 1
    ∧ (processAction a api talk e).1.statusTicks = e.statusTicks + 1
    ∧ (processAction a api talk e).1.bodyTicks = e.bodyTicks + 1
    ∧ (processAction a api talk e).2 = ⟨resp.narrative, resp.success⟩ := by
  simp only [processAction, hroom, hnt, Bool.false_eq_true, if_false, hapi]
  rcases hsa : stageApply a resp (pregenStep a currentRoom e.st) with ⟨s1, ok⟩
  rw [hsa] at hok
  have hok' : ok = true := hok
  subst hok'
  have h1 : s1.gs.currentTurn = e.st.gs.currentTurn := by
    have h := stageApply_turn a resp (pregenStep a currentRoom e.st)
    rw [hsa] at h
    rw [h, pregenStep_turn]
  simp only [hsa]
  refine ⟨?_, by first | trivial | rfl, by first | trivial | rfl,
    by first | trivial | rfl⟩
  show (updateBodyDecomposition (updateStatusEffectsSt (incTurn s1))).gs.currentTurn
      = e.st.gs.currentTurn + 1
  rw [updateBodyDecomposition_turn, updateStatusEffectsSt_turn]
  show s1.gs.currentTurn + 1 = e.st.gs.currentTurn + 1
  rw [h1]

/-- C1 counterexample to "the status-effect tick and the
corpse-decomposition tick ... each run exactly once" for every completed
turn: a successful talk turn advances the turn counter but runs neither
tick — the 3-turn poison is still at duration 3 afterwards. -/
theorem c1_counterexample :
    (processAction ⟨"talk", "talk to bob"⟩ ⟨none⟩ talkC1 exC1).2.success = true
    ∧ (processAction ⟨"talk", "talk to bob"⟩ ⟨none⟩ talkC1 exC1).1.st.gs.currentTurn
        = exC1.st.gs.currentTurn + 1
    ∧ (processAction ⟨"talk", "talk to bob"⟩ ⟨none⟩ talkC1 exC1).1.statusTicks
        = exC1.statusTicks
    ∧ (processAction ⟨"talk", "talk to bob"⟩ ⟨none⟩ talkC1 exC1).1.bodyTicks
        = exC1.bodyTicks
    ∧ (processAction ⟨"talk", "talk to bob"⟩ ⟨none⟩ talkC1
        exC1).1.st.gs.player.statuses.map StatusEffect.duration = [3] := by
  refine ⟨by decide, by decide, by decide, by decide, by decide⟩

/-- C1 witness: a completed non-talk turn on the base fixture. -/
theorem c1_witness :
    (getRoom baseExec.st.gs baseExec.st.gs.player.currentRoomId = some baseRoom
      ∧ ((⟨"custom", "wait"⟩ : PlayerActionT).ptype == "talk"
          || ((⟨"custom", "wait"⟩ : PlayerActionT).ptype == "custom"
              && isTalkAction (⟨"custom", "wait"⟩ : PlayerActionT).details)) = false
      ∧ (⟨some ⟨true, "ok", []⟩⟩ : TurnApi).resp = some ⟨true, "ok", []⟩
      ∧ (stageApply ⟨"custom", "wait"⟩ ⟨true, "ok", []⟩
          (pregenStep ⟨"custom", "wait"⟩ baseRoom baseExec.st)).2 = true)
    ∧ ((processAction ⟨"custom", "wait"⟩ ⟨some ⟨true, "ok", []⟩⟩ talkNone
          baseExec).1.st.gs.currentTurn = baseExec.st.gs.currentTurn + 1
      ∧ (processAction ⟨"custom", "wait"⟩ ⟨some ⟨true, "ok", []⟩⟩ talkNone
          baseExec).1.statusTicks = baseExec.statusTicks + 1
      ∧ (processAction ⟨"custom", "wait"⟩ ⟨some ⟨true, "ok", []⟩⟩ talkNone
          baseExec).1.bodyTicks = baseExec.bodyTicks + 1
      ∧ (processAction ⟨"custom", "wait"⟩ ⟨some ⟨true, "ok", []⟩⟩ talkNone
          baseExec).2 = ⟨("ok" : String), true⟩) :=
  ⟨⟨rfl, by decide, rfl, by decide⟩,
   c1_turn_ticks ⟨"custom", "wait"⟩ ⟨some ⟨true, "ok", []⟩⟩ talkNone baseExec
     baseRoom ⟨true, "ok", []⟩ rfl (by decide) rfl (by decide)⟩
